import Mathlib

/-!
A verification development for the PharmaCI change-detection engine.

The Python sources are shallowly embedded in Lean:
* Python `float` arithmetic is modelled by `ℚ` (the formulas of the engine
  use short decimal constants, so rational arithmetic reproduces them);
  Python `round(x, n)` is modelled by rounding to `n` decimal places.
* Python `str` is modelled by `String` / `List Char` (the texts handled by
  the engine are ASCII; `lower`, `strip`, `title` are modelled on ASCII).
* External collaborators (PIL image decoding and resampling, BeautifulSoup
  text extraction, the AWS Bedrock summarizer, the filesystem and the
  environment) are passed in as explicit function parameters.
* `difflib` (Python standard library) is modelled by an executable
  LCS-based opcode diff; the places where the model abstracts from the
  stdlib implementation are noted on the definitions.
-/

set_option maxRecDepth 4000

attribute [local semireducible] Rat.mul Rat.add Rat.sub Rat.inv

namespace PharmaCI

/-! ## Python-primitive helpers -/

/-- Model of Python `round(x, 2)`: round to two decimal places.
(Python rounds ties to even on binary floats; exact ties at the second
decimal place do not occur for the values produced by the engine, so
nearest-integer rounding is a faithful model.) -/
def pyRound2 (q : ℚ) : ℚ := (round (q * 100) : ℤ) / 100

/-- Model of Python `round(x, 4)`: round to four decimal places. -/
def pyRound4 (q : ℚ) : ℚ := (round (q * 10000) : ℤ) / 10000

/-- Model of Python `int(x)` on a float: truncation toward zero. -/
def pyInt (q : ℚ) : ℤ := q.num.tdiv (q.den : ℤ)

/-- Substring test on character lists: does `nd` occur inside `hay`?
Models Python's `nd in hay` for strings. -/
def containsSub (nd : List Char) : List Char → Bool
  | [] => nd.isEmpty
  | c :: rest => nd.isPrefixOf (c :: rest) || containsSub nd rest

/-- Model of Python `nd in hay` for `String`s. -/
def pyContains (hay nd : String) : Bool := containsSub nd.toList hay.toList

/-- Model of Python `str.lower()` (ASCII). -/
def pyLower (s : String) : String := String.mk (s.toList.map Char.toLower)

/-- Model of Python `str.strip()` on a character list. -/
def pyStrip (l : List Char) : List Char :=
  ((l.dropWhile Char.isWhitespace).reverse.dropWhile Char.isWhitespace).reverse

/-- Collect maximal runs of characters satisfying `p`; `cur` is the
current run, reversed. -/
def runsGo (p : Char → Bool) (cur : List Char) : List Char → List (List Char)
  | [] => if cur.isEmpty then [] else [cur.reverse]
  | c :: rest =>
      if p c then runsGo p (c :: cur) rest
      else if cur.isEmpty then runsGo p [] rest
      else cur.reverse :: runsGo p [] rest

/-- Maximal non-whitespace runs of a character list. -/
def wsSplit (l : List Char) : List (List Char) :=
  runsGo (fun c => !c.isWhitespace) [] l

/-- Model of Python `str.split()` (split on whitespace runs, no empties). -/
def pySplit (s : String) : List String := (wsSplit s.toList).map String.mk

/-- Split a character list at every occurrence of `sep`. -/
def splitOnChar (sep : Char) : List Char → List (List Char)
  | [] => [[]]
  | c :: rest =>
      if c = sep then [] :: splitOnChar sep rest
      else
        match splitOnChar sep rest with
        | [] => [[c]]
        | g :: gs => (c :: g) :: gs

/-- Model of Python `str.splitlines()` restricted to `\n` separators
(the engine's texts use plain newlines). -/
def pySplitlines (s : String) : List String :=
  if s = "" then [] else
    let parts := (splitOnChar '\n' s.toList).map String.mk
    if parts.getLast? = some "" then parts.dropLast else parts

/-- Model of Python `str.title()` (ASCII): uppercase each letter that
follows a non-letter, lowercase the other letters. -/
def pyTitleGo : Bool → List Char → List Char
  | _, [] => []
  | prevAlpha, c :: rest =>
      let c' := if c.isAlpha then (if prevAlpha then c.toLower else c.toUpper) else c
      c' :: pyTitleGo c.isAlpha rest

/-- Model of Python `str.title()` on `String`. -/
def pyTitle (s : String) : String := String.mk (pyTitleGo false s.toList)

/-- Decimal rendering of `n` zero-padded on the left to `p` digits. -/
def padDigits (p : Nat) (n : Nat) : String :=
  let d := toString n
  String.mk (List.replicate (p - d.length) '0') ++ d

/-- Fixed-point decimal rendering of a rational with `p` decimal places
(model of Python float formatting such as `"%.2f"`). -/
def fmtFixed (p : Nat) (q : ℚ) : String :=
  let m : ℤ := round (q * (10 : ℚ) ^ p)
  let sign := if m < 0 then "-" else ""
  let a := m.natAbs
  sign ++ toString (a / 10 ^ p) ++ "." ++ padDigits p (a % 10 ^ p)

/-- Model of Python `f-string` percent formatting `"{x:.2%}"`. -/
def fmtPercent2 (q : ℚ) : String := fmtFixed 2 (q * 100) ++ "%"

/-- Keep the first occurrence of each element; `seen` holds the elements
already emitted. -/
def dedupGo (seen : List String) : List String → List String
  | [] => []
  | x :: rest =>
      if seen.contains x then dedupGo seen rest
      else x :: dedupGo (x :: seen) rest

/-- Keep the first occurrence of each element
(model of Python `list(dict.fromkeys(xs))`). -/
def dedupFirst (l : List String) : List String := dedupGo [] l

/-- Lexicographic code-point comparison of character lists
(Python string `<=`). -/
def listLe : List Char → List Char → Bool
  | [], _ => true
  | _ :: _, [] => false
  | c :: cs, d :: ds => if c = d then listLe cs ds else decide (c < d)

/-- Insert into a `≤`-sorted list of strings. -/
def sortedInsert (x : String) : List String → List String
  | [] => [x]
  | y :: rest =>
      if listLe x.toList y.toList then x :: y :: rest else y :: sortedInsert x rest

/-- Insertion sort on strings (model of Python `sorted` on a string set;
Python compares strings by code points, as Lean's `String` order does). -/
def sortStrings : List String → List String
  | [] => []
  | x :: rest => sortedInsert x (sortStrings rest)

/-! ## Model of Python `difflib`

`difflib.SequenceMatcher` computes matching blocks by repeatedly taking
longest matches; the model below computes a longest common subsequence by
plain recursion and derives element-wise edit operations from it.  The
counts derived from it (`insert`/`delete` spans and the `ratio`) coincide
with the stdlib on the cases the verified claims depend on (in particular
on identical inputs); the stdlib's `autojunk` heuristic is not modelled. -/

/-- One element-wise diff operation. -/
inductive DiffOp (α : Type) where
  | eq (x : α)
  | del (x : α)
  | ins (x : α)
deriving DecidableEq

/-- Number of matched (`eq`) elements in an op list. -/
def eqCount {α : Type} : List (DiffOp α) → Nat
  | [] => 0
  | .eq _ :: rest => eqCount rest + 1
  | .del _ :: rest => eqCount rest
  | .ins _ :: rest => eqCount rest

/-- Element-wise LCS diff, structurally recursive on a fuel bound (the
fuel never runs out when it starts at the sum of the lengths). -/
def diffOpsGo {α : Type} [DecidableEq α] : Nat → List α → List α → List (DiffOp α)
  | _, [], [] => []
  | 0, _, _ => []
  | fuel + 1, [], y :: ys => .ins y :: diffOpsGo fuel [] ys
  | fuel + 1, x :: xs, [] => .del x :: diffOpsGo fuel xs []
  | fuel + 1, x :: xs, y :: ys =>
      if x = y then .eq x :: diffOpsGo fuel xs ys
      else if eqCount (diffOpsGo fuel (x :: xs) ys) > eqCount (diffOpsGo fuel xs (y :: ys)) then
        .ins y :: diffOpsGo fuel (x :: xs) ys
      else .del x :: diffOpsGo fuel xs (y :: ys)

/-- Element-wise LCS diff of two lists (model of the matching performed by
`difflib.SequenceMatcher`). -/
def diffOps {α : Type} [DecidableEq α] (a b : List α) : List (DiffOp α) :=
  diffOpsGo (a.length + b.length) a b

/-- Total inserted / deleted element counts (model of counting the `+ `/`- `
lines of `difflib.ndiff`, which marks every unmatched element). -/
def ndiffCounts {α : Type} : List (DiffOp α) → Nat × Nat
  | [] => (0, 0)
  | .eq _ :: rest => ndiffCounts rest
  | .ins _ :: rest => let (a, r) := ndiffCounts rest; (a + 1, r)
  | .del _ :: rest => let (a, r) := ndiffCounts rest; (a, r + 1)

/-- Flush one gap between matching blocks, as
`difflib.SequenceMatcher.get_opcodes` does: a gap with only deletions is a
`delete` opcode, only insertions an `insert` opcode, both a `replace`
opcode (which `text_diff_stats` does not count). -/
def flushGap (d i : Nat) (acc : Nat × Nat) : Nat × Nat :=
  if d > 0 ∧ i = 0 then (acc.1, acc.2 + d)
  else if i > 0 ∧ d = 0 then (acc.1 + i, acc.2)
  else acc

/-- Added/removed counts of the pure `insert`/`delete` opcode spans
(model of the opcode loop in `text_diff_stats`); returns `(added, removed)`. -/
def opcodeCountsGo {α : Type} (d i : Nat) (acc : Nat × Nat) :
    List (DiffOp α) → Nat × Nat
  | [] => flushGap d i acc
  | .eq _ :: rest => opcodeCountsGo 0 0 (flushGap d i acc) rest
  | .del _ :: rest => opcodeCountsGo (d + 1) i acc rest
  | .ins _ :: rest => opcodeCountsGo d (i + 1) acc rest

/-- `(added, removed)` from pure insert/delete opcode spans. -/
def opcodeCounts {α : Type} (ops : List (DiffOp α)) : Nat × Nat :=
  opcodeCountsGo 0 0 (0, 0) ops

/-- Model of `difflib.SequenceMatcher.ratio()`: `2*M/T`, and `1.0` when
both sequences are empty. -/
def diffRatio {α : Type} [DecidableEq α] (a b : List α) : ℚ :=
  if a.length + b.length = 0 then 1
  else 2 * (eqCount (diffOps a b) : ℚ) / ((a.length + b.length : Nat) : ℚ)

/-- Model of the line count of `difflib.unified_diff`: an empty output when
the line lists are element-wise equal, otherwise two file headers plus one
hunk header plus the diff body.  (The stdlib trims context and may emit
several hunks; only the no-change case — the one the verified claims
depend on — needs to be exact.) -/
def unifiedDiffLineCount (a b : List String) : Nat :=
  let ops := diffOps a b
  if ops.all (fun o => match o with | .eq _ => true | _ => false) then 0
  else 2 + 1 + ops.length

/-! ## `src/change_analysis/utils_image.py` -/

namespace UtilsImage

/-- An in-memory PIL image: either the blank white 64×64 placeholder
created by `Image.new("RGB", (64, 64), "white")`, or a bitmap decoded by
the external PIL decoder (identified by an opaque tag). -/
inductive PILImage where
  | blank64
  | decoded (tag : Nat)
deriving DecidableEq

/-- The external collaborators `load_image` and the hash functions rely
on: PIL byte decoding, base64 decoding, the filesystem, and PIL's
grayscale downscaling (`convert("L").resize((w, h), LANCZOS)`), which
returns the pixel grid as a list of `w*h` intensities. -/
structure ImageEnv where
  decodeBytes : List Nat → Option PILImage
  b64decode : String → Option (List Nat)
  fileExists : String → Bool
  openPath : String → Option PILImage
  resizeGray : PILImage → Nat → Nat → List Nat

/-- An image reference as accepted by `load_image`:
`None`, raw bytes, or a string. -/
inductive ImgRef where
  | pynone
  | bytes (b : List Nat)
  | str (s : String)

/-- The suffix after the last occurrence of `sep` in `s`
(`none` when `sep` does not occur). -/
def lastAfterSeq (sep : List Char) : List Char → Option (List Char)
  | [] => if sep.isEmpty then some [] else none
  | c :: rest =>
      match lastAfterSeq sep rest with
      | some r => some r
      | none =>
          if sep.isPrefixOf (c :: rest) then some ((c :: rest).drop sep.length)
          else none

/-- Model of `re.sub("^data:image/.+;base64,", "", x)`: greedily strip an
anchored data-URI head through the last `";base64,"` occurrence (at least
one character must sit between the head and that occurrence); if the
pattern does not match, return the string unchanged.  (The `.` of the
pattern does not match a newline; the model ignores that restriction, a
difference only for multi-line references.) -/
def stripDataUriHead (x : String) : String :=
  let xl := x.toList
  match lastAfterSeq (";base64,").toList xl with
  | some r =>
      if ("data:image/").toList.isPrefixOf xl ∧ xl.length - r.length ≥ 20 then
        String.mk r
      else x
  | none => x

/-- `load_image` from `utils_image.py`.  A Python exception escaping the
function is modelled as `Except.error ()`: the `bytes`, data-URI and
file-path branches call `Image.open` (and `base64.b64decode`) outside any
`try`, so a failing decode propagates; only the trailing plain-base64
attempt is wrapped in `try`, falling through to the blank placeholder. -/
def load_image (env : ImageEnv) : ImgRef → Except Unit PILImage
  | .pynone => .ok .blank64
  | .bytes b =>
      match env.decodeBytes b with
      | some img => .ok img
      | none => .error ()
  | .str s =>
      if s = "" then .ok .blank64
      else if ("data:image").toList.isPrefixOf (pyStrip s.toList) then
        match env.b64decode (stripDataUriHead s) with
        | none => .error ()
        | some bs =>
            match env.decodeBytes bs with
            | some img => .ok img
            | none => .error ()
      else if env.fileExists s then
        match env.openPath s with
        | some img => .ok img
        | none => .error ()
      else
        match env.b64decode s with
        | none => .ok .blank64
        | some bs =>
            match env.decodeBytes bs with
            | some img => .ok img
            | none => .ok .blank64

/-- Fold a bit list into the integer `int("".join(bits), 2)`. -/
def bitsToNat (bits : List Bool) : Nat :=
  bits.foldl (fun acc b => 2 * acc + (if b then 1 else 0)) 0

/-- `ahash` from `utils_image.py`: average hash over a `size`×`size`
grayscale grid. -/
def ahash (env : ImageEnv) (img : PILImage) (size : Nat := 8) : Nat :=
  let px := env.resizeGray img size size
  let avg : ℚ := (px.foldl (· + ·) 0 : Nat) / (px.length : ℚ)
  bitsToNat (px.map (fun p => decide ((p : ℚ) > avg)))

/-- `dhash` from `utils_image.py`.  Note: the source resizes to
`(size+1)`×`(size+1)` (not `(size+1)`×`size`), producing
`(size+1)*size` bits — 72 bits for the default size 8. -/
def dhash (env : ImageEnv) (img : PILImage) (size : Nat := 8) : Nat :=
  let w := size + 1
  let px := env.resizeGray img w w
  let rows := (List.range w).map (fun y => (List.range w).map
    (fun x => px.getD (y * w + x) 0))
  bitsToNat (rows.flatMap (fun row =>
    (List.range (w - 1)).map (fun x => decide (row.getD x 0 > row.getD (x + 1) 0))))

/-- Binary popcount, structurally recursive on a fuel bound. -/
def countOnesGo : Nat → Nat → Nat
  | 0, _ => 0
  | _, 0 => 0
  | fuel + 1, n + 1 => (n + 1) % 2 + countOnesGo fuel ((n + 1) / 2)

/-- Binary popcount used by `hamming` (`n` itself bounds the number of
binary digits). -/
def countOnes (n : Nat) : Nat := countOnesGo n n

/-- `hamming` from `utils_image.py`: `bin(a ^ b).count("1")`. -/
def hamming (a b : Nat) : Nat := countOnes (a ^^^ b)

/-- `perceptual_similarity` from `utils_image.py`: aHash+dHash blend,
clamped to `[0,1]` and rounded to 4 decimal places. -/
def perceptual_similarity (env : ImageEnv) (prev_img cur_img : PILImage) : ℚ :=
  let ah_diff : ℚ := (hamming (ahash env prev_img) (ahash env cur_img) : ℚ) / 64
  let dh_diff : ℚ := (hamming (dhash env prev_img) (dhash env cur_img) : ℚ) / 64
  let sim := 1 - (ah_diff + dh_diff) / 2
  pyRound4 (max 0 (min 1 sim))

end UtilsImage

/-! ## `src/change_analysis/importance.py` -/

namespace Importance

/-- `DomainWeights` from `importance.py`, as a lookup with default 1.0. -/
def DomainWeights (d : String) : ℚ :=
  if d = "regulatory" then 12/10
  else if d = "safety" then 115/100
  else if d = "pricing" then 11/10
  else 1

/-- `compute_importance_score` from `importance.py` (the rationale string
is omitted: it is a log-only artifact).  `text_added`/`text_removed` are
accepted and ignored exactly as in the source. -/
def compute_importance_score (text_added text_removed : Nat)
    (sim_text sim_visual : ℚ) (goal domain : String)
    (keywords : List String) : ℚ :=
  let _ := text_added
  let _ := text_removed
  let base := (1 - sim_text) * 6/10 + (1 - sim_visual) * 4/10
  let key_hits := (keywords.filter
    (fun k => pyContains (pyLower goal) (pyLower k))).length
  let base :=
    if keywords ≠ [] then
      if key_hits ≠ 0 then base + 5/100 * (key_hits : ℚ) else base
    else base
  let weight := DomainWeights (pyLower domain)
  let score := min 1 (base * weight)
  pyRound2 (score * 10)

/-- `label_from_score` from `importance.py`. -/
def label_from_score (score : ℚ) : String :=
  if score < 45/10 then "low"
  else if score < 75/10 then "medium"
  else "critical"

/-- `alert_from_label` from `importance.py`. -/
def alert_from_label (label : String) : String :=
  if label = "low" then "low"
  else if label = "medium" then "med"
  else "crit"

end Importance

/-! ## `src/change_analysis/utils_dom.py`

`extract_visible_text` wraps BeautifulSoup, an external collaborator; the
pipeline embedding below takes the extraction function as a parameter. -/

namespace UtilsDom

/-- Python tail slice `t[-n:]` on a list: note that `t[-0:]` is the whole
string, a quirk the source inherits for limits below 2. -/
def tailSlice {α : Type} (n : Nat) (t : List α) : List α :=
  if n = 0 then t else t.drop (t.length - n)

/-- The inner `trim` of `short_context_snippets`: strip, return unchanged
when within `max_chars`, else keep the first and last `max_chars // 2`
characters around a `" ... "` marker. -/
def trim (max_chars : Nat) (t : List Char) : List Char :=
  let t := pyStrip t
  if t.length ≤ max_chars then t
  else
    let half := max_chars / 2
    t.take half ++ (" ... ").toList ++ tailSlice half t

/-- `short_context_snippets` from `utils_dom.py`. -/
def short_context_snippets (prev_text cur_text : String)
    (max_chars : Nat := 1200) : String × String :=
  (String.mk (trim max_chars prev_text.toList),
   String.mk (trim max_chars cur_text.toList))

/-- `text_diff_stats` from `utils_dom.py`: word-level opcode counts of
pure inserts/deletes, unified-diff line count, and the similarity ratio
over the word sequences, rounded to 4 places.
Returns `(added, removed, total_diff_lines, similarity)`. -/
def text_diff_stats (prev_text cur_text : String) : Nat × Nat × Nat × ℚ :=
  let prev_lines := pySplit prev_text
  let cur_lines := pySplit cur_text
  let ops := diffOps prev_lines cur_lines
  let added := (opcodeCounts ops).1
  let removed := (opcodeCounts ops).2
  let diff_lines := unifiedDiffLineCount (pySplitlines prev_text) (pySplitlines cur_text)
  let similarity := pyRound4 (diffRatio prev_lines cur_lines)
  (added, removed, diff_lines, similarity)

end UtilsDom

/-! ## `goal_text_change_test/bedrock_prompt.py` -/

namespace BedrockPrompt

/-- The truncation marker inserted by `_smart_truncate`. -/
def truncMarker : List Char := ("\n\n[... content truncated ...]\n\n").toList

/-- `_smart_truncate` from `bedrock_prompt.py`: strip, return unchanged
when within `max_chars`, else keep the first `int(max_chars*0.6)` and the
last `int(max_chars*0.4)` characters around the marker.  (The float
products are modelled exactly by rational arithmetic; at the source's
call sites `max_chars = 3500`, where the float and rational computations
agree.) -/
def smart_truncate (t : List Char) (max_chars : Nat := 3500) : List Char :=
  let t := pyStrip t
  if t.length ≤ max_chars then t
  else
    let first_part := max_chars * 6 / 10
    let last_part := max_chars * 4 / 10
    t.take first_part ++ truncMarker ++ UtilsDom.tailSlice last_part t

end BedrockPrompt

/-! ## `goal_text_change_test/compare_texts.py` — KPI extraction

Each regex of `extract_numbers_with_labels` is embedded as a bespoke
matcher with Python `re` semantics: leftmost match, ordered alternation,
greedy/lazy repetition with the backtracking the pattern's continuation
can actually trigger. -/

namespace CompareTexts

/-- Leftmost-match search: try the matcher at every suffix, earliest
position first (model of `re.search`). -/
def reSearch {α : Type} (f : List Char → Option α) : List Char → Option α
  | [] => f []
  | c :: rest => f (c :: rest) <|> reSearch f rest

/-- Match a literal and return the remaining input. -/
def matchLit (lit : List Char) (s : List Char) : Option (List Char) :=
  if lit.isPrefixOf s then some (s.drop lit.length) else none

/-- Match `p+` greedily (the continuations here never match a `p` char,
so committing to the maximal run is faithful). -/
def matchPlus (p : Char → Bool) : List Char → Option (List Char)
  | [] => none
  | c :: rest => if p c then some (rest.dropWhile p) else none

/-- Separator class `[\s:]`. -/
def isSep (c : Char) : Bool := c.isWhitespace || c = ':'

/-- Split a maximal digit run off the front. -/
def takeDigits (s : List Char) : List Char × List Char :=
  (s.takeWhile Char.isDigit, s.dropWhile Char.isDigit)

/-- Numeric value of a digit list. -/
def digitsVal (ds : List Char) : Nat :=
  ds.foldl (fun a c => 10 * a + (c.toNat - '0'.toNat)) 0

/-- Greedy `(?:,\d{3})*`: consume comma-plus-three-digit groups, returning
the consumed characters and the rest. -/
def commaGroups : List Char → List Char × List Char
  | ',' :: d1 :: d2 :: d3 :: rest =>
      if d1.isDigit ∧ d2.isDigit ∧ d3.isDigit then
        let (g, r) := commaGroups rest
        (',' :: d1 :: d2 :: d3 :: g, r)
      else ([], ',' :: d1 :: d2 :: d3 :: rest)
  | s => ([], s)

/-- Value of `\d+(?:,\d{3})*` digits after removing the commas
(Python `num_str.replace(",", "")`). -/
def commaNumVal (d g : List Char) : ℚ :=
  (digitsVal (d ++ g.filter (fun c => c ≠ ',')) : ℚ)

/-- `v(?:ersion\s+)?(\d+\.\d+)` — the tail of the Protocol pattern. -/
def vPart (s : List Char) : Option ℚ := do
  let r ← matchLit ['v'] s
  let r := (do
    let r2 ← matchLit ("ersion").toList r
    matchPlus Char.isWhitespace r2).getD r
  let (d1, r) := takeDigits r
  if d1.isEmpty then none else do
  let r ← matchLit ['.'] r
  let (d2, _) := takeDigits r
  if d2.isEmpty then none else
  some ((digitsVal d1 : ℚ) + (digitsVal d2 : ℚ) / 10 ^ d2.length)

/-- `(?:protocol\s+)?v(?:ersion\s+)?(\d+\.\d+)` at one position. -/
def protoAt (s : List Char) : Option ℚ :=
  (do
    let r ← matchLit ("protocol").toList s
    let r ← matchPlus Char.isWhitespace r
    vPart r) <|> vPart s

/-- `[\s:]+(\d+(?:,\d{3})*)` — separator then comma-grouped number. -/
def sepNumber (r : List Char) : Option ℚ := do
  let r ← matchPlus isSep r
  let (d, r2) := takeDigits r
  if d.isEmpty then none else
  let (g, _) := commaGroups r2
  some (commaNumVal d g)

/-- `(?:enrolled?|enrollment)[\s:]+(\d+(?:,\d{3})*)\s*(?:patients?)?`
at one position (the trailing optional group never fails and does not
affect the captured number). -/
def enrollAt (s : List Char) : Option ℚ :=
  (matchLit ("enrolled").toList s >>= sepNumber) <|>
  (matchLit ("enrolle").toList s >>= sepNumber) <|>
  (matchLit ("enrollment").toList s >>= sepNumber)

/-- `target\s+enrollment[\s:]+(\d+(?:,\d{3})*)` at one position. -/
def targetAt (s : List Char) : Option ℚ := do
  let r ← matchLit ("target").toList s
  let r ← matchPlus Char.isWhitespace r
  let r ← matchLit ("enrollment").toList r
  sepNumber r

/-- `site` + optional `s` + `[\s:]+(\d+)`. -/
def sitesCore (s : List Char) : Option ℚ := do
  let r ← matchLit ("site").toList s
  let r := (matchLit ['s'] r).getD r
  let r ← matchPlus isSep r
  let (d, _) := takeDigits r
  if d.isEmpty then none else some (digitsVal d : ℚ)

/-- `(?:active\s+)?sites?[\s:]+(\d+)` at one position. -/
def sitesAt (s : List Char) : Option ℚ :=
  (do
    let r ← matchLit ("active").toList s
    let r ← matchPlus Char.isWhitespace r
    sitesCore r) <|> sitesCore s

/-- `(\d+(?:\.\d+)?)%` at one position: greedy optional fraction with
fall-back to the bare integer. -/
def pctNumberAt (s : List Char) : Option ℚ :=
  let (d, r) := takeDigits s
  if d.isEmpty then none else
  (do
    let r2 ← matchLit ['.'] r
    let (f, r3) := takeDigits r2
    if f.isEmpty then none else do
    let _ ← matchLit ['%'] r3
    some ((digitsVal d : ℚ) + (digitsVal f : ℚ) / 10 ^ f.length)) <|>
  (do
    let _ ← matchLit ['%'] r
    some (digitsVal d : ℚ))

/-- Lazy bounded gap `[^%]{0,fuel}?` followed by `(\d+(?:\.\d+)?)%`:
try the continuation at each gap length, smallest first. -/
def saeGap : Nat → List Char → Option ℚ
  | _, [] => none
  | fuel, c :: rest =>
      match pctNumberAt (c :: rest) with
      | some v => some v
      | none =>
          if fuel = 0 then none
          else if c = '%' then none
          else saeGap (fuel - 1) rest

/-- `(?:sae|serious\s+adverse\s+events?)[^%]{0,50}?(\d+(?:\.\d+)?)%`
at one position. -/
def saeAt (s : List Char) : Option ℚ :=
  (matchLit ("sae").toList s >>= saeGap 50) <|>
  (do
    let r ← matchLit ("serious").toList s
    let r ← matchPlus Char.isWhitespace r
    let r ← matchLit ("adverse").toList r
    let r ← matchPlus Char.isWhitespace r
    let r ← matchLit ("event").toList r
    let r := (matchLit ['s'] r).getD r
    saeGap 50 r)

/-- `adverse\s+event\s+rate[\s:]+(\d+(?:\.\d+)?)%` at one position. -/
def aeAt (s : List Char) : Option ℚ := do
  let r ← matchLit ("adverse").toList s
  let r ← matchPlus Char.isWhitespace r
  let r ← matchLit ("event").toList r
  let r ← matchPlus Char.isWhitespace r
  let r ← matchLit ("rate").toList r
  let r ← matchPlus isSep r
  pctNumberAt r

/-- Unit alternation `(billion|b|million|m)`, ordered as in the pattern. -/
def unitAlt (r : List Char) : Option String :=
  if ("billion").toList.isPrefixOf r then some "billion"
  else if ['b'].isPrefixOf r then some "b"
  else if ("million").toList.isPrefixOf r then some "million"
  else if ['m'].isPrefixOf r then some "m"
  else none

/-- `[\$](\d+(?:\.\d+)?)\s*(billion|b|million|m)` at one position,
returning value and unit. -/
def rndDollarAt (s : List Char) : Option (ℚ × String) := do
  let r ← matchLit ['$'] s
  let (d, r2) := takeDigits r
  if d.isEmpty then none else
  (do
    let r3 ← matchLit ['.'] r2
    let (f, r4) := takeDigits r3
    if f.isEmpty then none else do
    let u ← unitAlt (r4.dropWhile Char.isWhitespace)
    some ((digitsVal d : ℚ) + (digitsVal f : ℚ) / 10 ^ f.length, u)) <|>
  (do
    let u ← unitAlt (r2.dropWhile Char.isWhitespace)
    some ((digitsVal d : ℚ), u))

/-- Lazy unbounded gap `.*?` (no newline) followed by a dollar-anchored
continuation: try the continuation at each position, earliest first. -/
def lazyDollarGap {α : Type} (f : List Char → Option α) : List Char → Option α
  | [] => none
  | c :: rest =>
      match f (c :: rest) with
      | some v => some v
      | none => if c = '\n' then none else lazyDollarGap f rest

/-- `r&d\s+investment.*?[\$](\d+(?:\.\d+)?)\s*(billion|b|million|m)`
at one position, returning value and unit. -/
def rndAt (s : List Char) : Option (ℚ × String) := do
  let r ← matchLit ("r&d").toList s
  let r ← matchPlus Char.isWhitespace r
  let r ← matchLit ("investment").toList r
  lazyDollarGap rndDollarAt r

/-- Unit alternation `(billion|million|m)` of the Program Cost pattern. -/
def costUnitAlt (r : List Char) : Option String :=
  if ("billion").toList.isPrefixOf r then some "billion"
  else if ("million").toList.isPrefixOf r then some "million"
  else if ['m'].isPrefixOf r then some "m"
  else none

/-- `[\$](\d+(?:,\d{3})*(?:\.\d+)?)\s*(billion|million|m)` at one
position, returning value and unit. -/
def costDollarAt (s : List Char) : Option (ℚ × String) := do
  let r ← matchLit ['$'] s
  let (d, r2) := takeDigits r
  if d.isEmpty then none else
  let (g, r3) := commaGroups r2
  (do
    let r4 ← matchLit ['.'] r3
    let (f, r5) := takeDigits r4
    if f.isEmpty then none else do
    let u ← costUnitAlt (r5.dropWhile Char.isWhitespace)
    some (commaNumVal d g + (digitsVal f : ℚ) / 10 ^ f.length, u)) <|>
  (do
    let u ← costUnitAlt (r3.dropWhile Char.isWhitespace)
    some (commaNumVal d g, u))

/-- `program\s+cost.*?[\$](\d+(?:,\d{3})*(?:\.\d+)?)\s*(billion|million|m)`
at one position. -/
def costAt (s : List Char) : Option (ℚ × String) := do
  let r ← matchLit ("program").toList s
  let r ← matchPlus Char.isWhitespace r
  let r ← matchLit ("cost").toList r
  lazyDollarGap costDollarAt r

/-- Phase numeral alternation `(?:iii|3|ii|2|iv|4|i|1)`, ordered;
returns the consumed length. -/
def phaseNumAt (s : List Char) : Option Nat :=
  if ("iii").toList.isPrefixOf s then some 3
  else if ['3'].isPrefixOf s then some 1
  else if ("ii").toList.isPrefixOf s then some 2
  else if ['2'].isPrefixOf s then some 1
  else if ("iv").toList.isPrefixOf s then some 2
  else if ['4'].isPrefixOf s then some 1
  else if ['i'].isPrefixOf s then some 1
  else if ['1'].isPrefixOf s then some 1
  else none

/-- `phase\s*(?:iii|3|ii|2|iv|4|i|1)` at one position; consumed length. -/
def phaseTermAt (s : List Char) : Option Nat :=
  if ("phase").toList.isPrefixOf s then
    let r := s.drop 5
    let wsn := (r.takeWhile Char.isWhitespace).length
    match phaseNumAt (r.drop wsn) with
    | some k => some (5 + wsn + k)
    | none => none
  else none

/-- Lazy gap `[^.]*?` followed by the phase term: length from the current
position to the end of the first phase term reachable without crossing a
period. -/
def gapPhaseLen : List Char → Option Nat
  | [] => none
  | c :: rest =>
      match phaseTermAt (c :: rest) with
      | some k => some k
      | none => if c = '.' then none else (gapPhaseLen rest).map (· + 1)

/-- Anchor alternation `(?:study|trial|clinical\s+trial)`; consumed
length. -/
def anchorAt (s : List Char) : Option Nat :=
  if ("study").toList.isPrefixOf s then some 5
  else if ("trial").toList.isPrefixOf s then some 5
  else if ("clinical").toList.isPrefixOf s then
    let r := s.drop 8
    let wsn := (r.takeWhile Char.isWhitespace).length
    if wsn ≥ 1 ∧ ("trial").toList.isPrefixOf (r.drop wsn) then some (8 + wsn + 5)
    else none
  else none

/-- Leftmost match of the overview pattern
`(?:study|trial|clinical\s+trial)[^.]*?phase\s*(?:iii|3|ii|2|iv|4|i|1)`,
returning the matched span. -/
def overviewSearch : List Char → Option (List Char)
  | [] => none
  | c :: rest =>
      (match anchorAt (c :: rest) with
       | some alen =>
          match gapPhaseLen ((c :: rest).drop alen) with
          | some glen => some ((c :: rest).take (alen + glen))
          | none => none
       | none => none) <|> overviewSearch rest

/-- `phase\s*i(?!\s*(?:i|v))` at one position: a phase-one mention whose
first following non-whitespace character is not `i` or `v`. -/
def phaseOneAt (s : List Char) : Bool :=
  if ("phase").toList.isPrefixOf s then
    match (s.drop 5).dropWhile Char.isWhitespace with
    | 'i' :: rest =>
        match rest.dropWhile Char.isWhitespace with
        | [] => true
        | c :: _ => c ≠ 'i' ∧ c ≠ 'v'
    | _ => false
  else false

/-- Search for `phase\s*i(?!\s*(?:i|v))` anywhere in the span. -/
def phaseOneSearch : List Char → Bool
  | [] => false
  | c :: rest => phaseOneAt (c :: rest) || phaseOneSearch rest

/-- The Phase rule of `extract_numbers_with_labels`: match the overview
pattern in the first 500 characters of the lowered text, then decide the
phase from substring tests on the matched span (in source order). -/
def phaseRule (text_lower : List Char) : Option ℚ :=
  match overviewSearch (text_lower.take 500) with
  | none => none
  | some m =>
      if containsSub ("phase iii").toList m || containsSub ("phase 3").toList m then some 3
      else if containsSub ("phase ii").toList m || containsSub ("phase 2").toList m then some 2
      else if containsSub ("phase iv").toList m || containsSub ("phase 4").toList m then some 4
      else if phaseOneSearch m then some 1
      else none

/-- One optional KPI entry. -/
def optEntry (k : String) (v : Option ℚ) : List (String × ℚ) :=
  match v with
  | some x => [(k, x)]
  | none => []

/-- `extract_numbers_with_labels` from `compare_texts.py`: the KPI map as
an insertion-ordered association list (Python dicts preserve insertion
order; every key is inserted at most once). -/
def extract_numbers_with_labels (text : String) : List (String × ℚ) :=
  let tl := (pyLower text).toList
  optEntry "Phase" (phaseRule tl) ++
  optEntry "Protocol" (reSearch protoAt tl) ++
  optEntry "Enrollment" (reSearch enrollAt tl) ++
  optEntry "Target Enrollment" (reSearch targetAt tl) ++
  optEntry "Sites" (reSearch sitesAt tl) ++
  optEntry "SAE" (reSearch saeAt tl) ++
  optEntry "Adverse Event Rate" (reSearch aeAt tl) ++
  (match reSearch rndAt tl with
   | some (v, unit) =>
      if pyContains unit "b" then [("R&D", v)]
      else if pyContains unit "m" then [("R&D", v / 1000)]
      else []
   | none => []) ++
  (match reSearch costAt tl with
   | some (v, unit) =>
      if pyContains unit "m" then [("Program Cost", v)] else []
   | none => [])

/-- Lookup in the KPI association list. -/
def kpiGet (kpis : List (String × ℚ)) (k : String) : Option ℚ :=
  (kpis.find? (fun e => e.1 = k)).map (fun e => e.2)

/-- The fixed critical-term vocabulary of `detect_critical_phrases`. -/
def critical_terms : List String :=
  ["fast track", "breakthrough", "discontinued", "terminated", "recall",
   "regulatory submission", "protocol v1.1", "phase 3", "phase iii",
   "paused", "delay", "hold", "accelerated approval", "priority review"]

/-- `detect_critical_phrases` from `compare_texts.py`: terms present in
the current text but absent from the previous text, title-cased, in
vocabulary order. -/
def detect_critical_phrases (prev_text cur_text : String) : List String :=
  let prev_lower := pyLower prev_text
  let cur_lower := pyLower cur_text
  (critical_terms.filter
    (fun t => pyContains cur_lower t && !(pyContains prev_lower t))).map pyTitle

/-- Word character class `\w` (ASCII). -/
def isWordChar (c : Char) : Bool := c.isAlphanum || c = '_'

/-- Maximal `\w` runs of a character list (model of
`re.findall(r"\b\w{3,}\b", s)` before the length filter). -/
def wordRuns (l : List Char) : List (List Char) := runsGo isWordChar [] l

/-- `compute_goal_keywords` from `compare_texts.py`: lower-cased words of
length at least 3, in order, duplicates kept. -/
def compute_goal_keywords (goal : String) : List String :=
  ((wordRuns (pyLower goal).toList).filter (fun w => w.length ≥ 3)).map String.mk

/-- Python `sep.join(xs)`. -/
def joinSep (sep : String) : List String → String
  | [] => ""
  | [x] => x
  | x :: y :: rest => x ++ sep ++ joinSep sep (y :: rest)

/-- `count_keyword_hits` from `compare_texts.py`: the number of goal
keywords occurring as substrings of the lowered concatenation of the text
and the numeric insights (presence count per keyword). -/
def count_keyword_hits (goal_keywords : List String) (text : String)
    (numeric_insights : List String) : Nat :=
  let combined := pyLower (text ++ " " ++ joinSep " " numeric_insights)
  (goal_keywords.filter (fun kw => pyContains combined kw)).length

/-- The insight string for one KPI key (the per-key display formats of
`compute_numeric_delta`; the final catch-all branch is unreachable for
the fixed key vocabulary and is modelled with one-decimal formatting). -/
def kpiInsight (key : String) (pv cv : ℚ) : String :=
  if key = "Phase" then
    "Phase " ++ toString (pyInt pv) ++ " → " ++ toString (pyInt cv)
  else if key = "Protocol" then
    "Protocol v" ++ fmtFixed 1 pv ++ " → v" ++ fmtFixed 1 cv
  else if key = "Enrollment" then
    "Enrollment " ++ toString (pyInt pv) ++ " → " ++ toString (pyInt cv)
  else if key = "Sites" then
    "Sites " ++ toString (pyInt pv) ++ " → " ++ toString (pyInt cv)
  else if key = "SAE" then
    "SAE " ++ fmtFixed 1 pv ++ "% → " ++ fmtFixed 1 cv ++ "%"
  else if key = "Adverse Event Rate" then
    "Adverse Event Rate " ++ fmtFixed 1 pv ++ "% → " ++ fmtFixed 1 cv ++ "%"
  else if key = "R&D" then
    "R&D $" ++ fmtFixed 1 pv ++ "B → $" ++ fmtFixed 1 cv ++ "B"
  else if key = "Program Cost" then
    "Program Cost $" ++ toString (pyInt pv) ++ "M → $" ++ toString (pyInt cv) ++ "M"
  else
    key ++ " " ++ fmtFixed 1 pv ++ " → " ++ fmtFixed 1 cv

/-- The keys common to both KPI maps, sorted (Python
`sorted(set(prev) & set(cur))`, code-point order). -/
def commonKeysSorted (p c : List (String × ℚ)) : List String :=
  sortStrings ((p.map (fun e => e.1)).filter (fun k => (kpiGet c k).isSome))

/-- Per-key `(normalized delta, insight)` entries of
`compute_numeric_delta`, for the common keys whose absolute difference
exceeds 0.01. -/
def deltaEntries (p c : List (String × ℚ)) : List (ℚ × String) :=
  (commonKeysSorted p c).filterMap fun k =>
    match kpiGet p k, kpiGet c k with
    | some pv, some cv =>
        if |pv - cv| > 1/100 then
          some (|cv - pv| / max (max |pv| |cv|) 1, kpiInsight k pv cv)
        else none
    | _, _ => none

/-- `compute_numeric_delta` from `compare_texts.py`:
`(mean normalized delta, insight strings)`; no overlapping changed key
yields `(0, [])`. -/
def compute_numeric_delta (p c : List (String × ℚ)) : ℚ × List String :=
  let es := deltaEntries p c
  (if es.isEmpty then 0
   else ((es.map (fun e => e.1)).foldl (· + ·) 0) / (es.length : ℚ),
   es.map (fun e => e.2))

/-- The goal keywords that trigger the 1.3 domain multiplier. -/
def multiplier_terms : List String := ["regulatory", "trial", "safety", "clinical"]

/-- `recalibrated_scoring` from `compare_texts.py`: the primary KPI-aware
scoring function; returns `(import_score, importance, alert_criteria)`. -/
def recalibrated_scoring (similarity mean_numeric_delta : ℚ)
    (keyword_hits : Nat) (critical_flags : List String)
    (goal_alignment : ℚ) (goal : String) : ℚ × String × String :=
  let text_term := (1 - similarity) * 55/100
  let num_term := min 1 mean_numeric_delta * 25/100
  let kw_term := min 1 ((keyword_hits : ℚ) / 5) * 10/100
  let crit_term := (if critical_flags.isEmpty then 0 else 1) * 10/100
  let align_term := goal_alignment * 5/100
  let base_score := text_term + num_term + kw_term + crit_term + align_term
  let score := 10 * base_score
  let goal_lower := pyLower goal
  let score :=
    if multiplier_terms.any (fun kw => pyContains goal_lower kw) then
      score * 13/10
    else score
  let score := min 10 score
  let (importance, alert) :=
    if score < 45/10 then ("low", "low")
    else if score < 7 then ("medium", "med")
    else ("critical", "crit")
  (pyRound2 score, importance, alert)

/-- The output dictionary of `enhanced_diff_analysis` (the ambient
timestamp `datetime.now()` is passed in as `analysis_timestamp`). -/
structure EnhancedResult where
  has_change : Bool
  summary_change : String
  text_added : Nat
  text_removed : Nat
  similarity : ℚ
  total_diff_lines : Nat
  importance : String
  import_score : ℚ
  alert_criteria : String
  key_insights : List String
  goal_alignment : ℚ
  reasoning : String
  llm_used : Bool
  analysis_timestamp : String

/-- `enhanced_diff_analysis` from `compare_texts.py`: the deterministic
local analysis (token diff, char-level similarity ratio, KPI delta,
critical phrases, goal keywords, recalibrated scoring, local summary). -/
def enhanced_diff_analysis (now : String)
    (goal prev_text cur_text : String) : EnhancedResult :=
  let prev_tokens := pySplit prev_text
  let cur_tokens := pySplit cur_text
  let added := (ndiffCounts (diffOps prev_tokens cur_tokens)).1
  let removed := (ndiffCounts (diffOps prev_tokens cur_tokens)).2
  let similarity := pyRound4 (diffRatio prev_text.toList cur_text.toList)
  let diff_lines := unifiedDiffLineCount (pySplitlines prev_text) (pySplitlines cur_text)
  let prev_kpis := extract_numbers_with_labels prev_text
  let cur_kpis := extract_numbers_with_labels cur_text
  let mean_numeric_delta := (compute_numeric_delta prev_kpis cur_kpis).1
  let numeric_insights := (compute_numeric_delta prev_kpis cur_kpis).2
  let critical_flags := detect_critical_phrases prev_text cur_text
  let goal_keywords := compute_goal_keywords goal
  let keyword_hits := count_keyword_hits goal_keywords (prev_text ++ cur_text) numeric_insights
  let goal_alignment : ℚ := 1/2
  let scored :=
    recalibrated_scoring similarity mean_numeric_delta keyword_hits
      critical_flags goal_alignment goal
  let import_score := scored.1
  let importance := scored.2.1
  let alert := scored.2.2
  let summary_parts :=
    (if numeric_insights.isEmpty then []
     else ["Key changes: " ++ joinSep ", " (numeric_insights.take 4)]) ++
    (if critical_flags.isEmpty then []
     else ["Critical updates: " ++ joinSep ", " (critical_flags.take 3)]) ++
    [toString added ++ " tokens added, " ++ toString removed ++
      " removed; similarity=" ++ fmtPercent2 similarity]
  let summary_change := joinSep ". " summary_parts ++ "."
  let key_insights := (dedupFirst (numeric_insights ++ critical_flags)).take 8
  let key_insights :=
    if key_insights.isEmpty then ["Minor or no changes detected"] else key_insights
  { has_change := decide (added + removed > 0) || decide (similarity < 98/100) ||
      !critical_flags.isEmpty
    summary_change := String.mk (summary_change.toList.take 500)
    text_added := added
    text_removed := removed
    similarity := similarity
    total_diff_lines := diff_lines
    importance := importance
    import_score := import_score
    alert_criteria := alert
    key_insights := key_insights
    goal_alignment := goal_alignment
    reasoning := "Enhanced analysis: text dissimilarity=" ++
      fmtPercent2 (1 - similarity) ++ ", numeric delta=" ++
      fmtFixed 2 mean_numeric_delta ++ ", keyword hits=" ++
      toString keyword_hits ++ ", critical flags=" ++
      toString critical_flags.length
    llm_used := false
    analysis_timestamp := now }

/-- A parsed external-summarizer payload as consumed by the merge logic
(`llm_result.get(key, default)` is modelled by `Option.getD`). -/
structure LlmResult where
  has_change : Option Bool := none
  summary_change : Option String := none
  similarity : Option ℚ := none
  key_insights : Option (List String) := none
  goal_alignment : Option ℚ := none
  reasoning : Option String := none

/-- The merged output dictionary of `run_bedrock_analysis`. -/
structure MergedResult where
  has_change : Bool
  summary_change : String
  text_added : Nat
  text_removed : Nat
  similarity : ℚ
  total_diff_lines : Nat
  key_insights : List String
  goal_alignment : ℚ
  llm_used : Bool
  model_id : String
  analysis_timestamp : String
  import_score : ℚ
  importance : String
  alert_criteria : String
  reasoning : String

/-- The merge step of `run_bedrock_analysis` (`compare_texts.py`,
lines 524–561): executed when the external call succeeded and its payload
parsed; prefers the external payload for `has_change`, `summary_change`,
`similarity`, `key_insights`, `goal_alignment` and `reasoning`, keeps the
local diff counts, and recomputes score/importance/alert with
`recalibrated_scoring` (keyword hits are recounted with an empty insight
list). -/
def bedrock_merge (now model_id : String) (llm : LlmResult)
    (goal prev_text cur_text : String) : MergedResult :=
  let local_result := enhanced_diff_analysis now goal prev_text cur_text
  let m_similarity := llm.similarity.getD local_result.similarity
  let m_goal_alignment := llm.goal_alignment.getD local_result.goal_alignment
  let prev_kpis := extract_numbers_with_labels prev_text
  let cur_kpis := extract_numbers_with_labels cur_text
  let mean_numeric_delta := (compute_numeric_delta prev_kpis cur_kpis).1
  let critical_flags := detect_critical_phrases prev_text cur_text
  let goal_keywords := compute_goal_keywords goal
  let keyword_hits := count_keyword_hits goal_keywords (prev_text ++ cur_text) []
  let scored :=
    recalibrated_scoring m_similarity mean_numeric_delta keyword_hits
      critical_flags m_goal_alignment goal
  let import_score := scored.1
  let importance := scored.2.1
  let alert := scored.2.2
  { has_change := llm.has_change.getD local_result.has_change
    summary_change := llm.summary_change.getD local_result.summary_change
    text_added := local_result.text_added
    text_removed := local_result.text_removed
    similarity := m_similarity
    total_diff_lines := local_result.total_diff_lines
    key_insights := llm.key_insights.getD local_result.key_insights
    goal_alignment := m_goal_alignment
    llm_used := true
    model_id := model_id
    analysis_timestamp := now
    import_score := import_score
    importance := importance
    alert_criteria := alert
    reasoning := llm.reasoning.getD local_result.reasoning }

/-- `VISUAL_WEIGHT` parsing and clamping in `main`
(`float(os.getenv("VISUAL_WEIGHT", "0.3"))`, clamped to `[0.0, 0.5]`). -/
def visual_weight (vwEnv : Option ℚ) : ℚ :=
  max 0 (min (1/2) (vwEnv.getD (3/10)))

/-- The post-hoc blended similarity of `main`:
`(1 - vw) * text_sim + vw * visual_similarity`. -/
def sim_combined (vwEnv : Option ℚ) (text_sim visual_sim : ℚ) : ℚ :=
  let vw := visual_weight vwEnv
  (1 - vw) * text_sim + vw * visual_sim

/-- The visual post-processing of `main` (`compare_texts.py`,
lines 697–731): recompute score/importance/alert from the blended
similarity and prepend the visual note to the summary. -/
def apply_visual_blend (vwEnv : Option ℚ) (result : MergedResult)
    (visual_similarity : ℚ) : MergedResult :=
  let sc := sim_combined vwEnv result.similarity visual_similarity
  let import_score := min 10 (pyRound2 ((1 - sc) * 10))
  let (importance, alert) :=
    if import_score < 45/10 then ("low", "low")
    else if import_score < 7 then ("medium", "med")
    else ("critical", "crit")
  let vsim_level :=
    if visual_similarity > 85/100 then "minor"
    else if visual_similarity > 65/100 then "moderate"
    else "significant"
  let visualHead := "[visual] similarity=" ++ fmtFixed 2 visual_similarity ++
    " (" ++ vsim_level ++ ") — "
  { result with
      import_score := import_score
      importance := importance
      alert_criteria := alert
      summary_change := visualHead ++ result.summary_change }

end CompareTexts

/-! ## `src/change_analysis/pipeline.py` and collaborators -/

namespace Pipeline

/-- The `ChangeResult` schema (`schemas.py`): the nine wire fields. -/
structure ChangeResult where
  has_change : Bool
  text_added : Nat
  text_removed : Nat
  similarity : ℚ
  total_diff_lines : Nat
  summary_change : String
  importance : String
  import_score : ℚ
  alert_criteria : String
deriving DecidableEq

/-- A parsed payload of the pipeline's external summarizer
(`summarize_with_llm` / `llm_res.get("summary_change", "")`). -/
structure LlmSummary where
  summary_change : Option String := none

/-- `summarize_with_llm` from `llm_adapter.py`: returns nothing when
`USE_BEDROCK` is disabled; otherwise defers to the external service
(modelled as a function parameter whose failure is `none`). -/
def summarize_with_llm (use_bedrock : Bool)
    (llmCall : String → Option LlmSummary) (prompt : String) :
    Option LlmSummary :=
  if use_bedrock then llmCall prompt else none

/-- `build_diff_prompt` from `llm_adapter.py`. -/
def build_diff_prompt (url goal domain prev_snippet cur_snippet : String)
    (added removed diff_lines : Nat) : String :=
  "\nYou are an expert analyst. Compare previous vs current webpage snapshots.\n\nURL: "
    ++ url ++ "\nGoal: " ++ goal ++ "\nDomain: " ++ domain
    ++ "\n\nStats:\n- text added: " ++ toString added
    ++ "\n- text removed: " ++ toString removed
    ++ "\n- total diff lines: " ++ toString diff_lines
    ++ "\n\nPrevious snippet:\n<<<\n" ++ prev_snippet
    ++ "\n>>>\n\nCurrent snippet:\n<<<\n" ++ cur_snippet
    ++ "\n>>>\n\nRespond strictly in JSON with keys:\nsummary_change (string)\nsalient_points (list)\nkeyword_hits (list)\n"

/-- The summary string of `local_summary_fallback` from `llm_adapter.py`
(the deterministic fallback; the empty `salient_points`/`keyword_hits`
fields are not used by the pipeline). -/
def local_summary_fallback (url goal domain prev_text cur_text : String)
    (added removed diff_lines : Nat) : String :=
  let _ := goal
  let _ := prev_text
  let _ := cur_text
  let change :=
    if added ≠ 0 ∧ removed = 0 then "Added " ++ toString added ++ " new words."
    else if removed ≠ 0 ∧ added = 0 then "Removed " ++ toString removed ++ " words."
    else if added ≠ 0 ∨ removed ≠ 0 then
      toString added ++ " added, " ++ toString removed ++ " removed."
    else "Minor formatting change."
  "Content modified on " ++ domain ++ " page (" ++ url ++ "): " ++ change
    ++ " (" ++ toString diff_lines ++ " diff lines)."

/-- `analyze_change` from `pipeline.py`.  External collaborators are
explicit parameters: the PIL environment `imgEnv`, the BeautifulSoup text
extraction `extractText`, and the external summarizer `llmCall` guarded
by `use_bedrock`.  An exception escaping `load_image` propagates out of
the function (`Except.error`). -/
def analyze_change (imgEnv : UtilsImage.ImageEnv)
    (extractText : String → String) (use_bedrock : Bool)
    (llmCall : String → Option LlmSummary)
    (prev_dom cur_dom : String) (prev_ss cur_ss : UtilsImage.ImgRef)
    (goal domain url : String) (keywords : List String) :
    Except Unit ChangeResult := do
  let prev_img ← UtilsImage.load_image imgEnv prev_ss
  let cur_img ← UtilsImage.load_image imgEnv cur_ss
  let sim_visual := UtilsImage.perceptual_similarity imgEnv prev_img cur_img
  let prev_text := extractText prev_dom
  let cur_text := extractText cur_dom
  let tds := UtilsDom.text_diff_stats prev_text cur_text
  let added := tds.1
  let removed := tds.2.1
  let diff_lines := tds.2.2.1
  let sim_text := tds.2.2.2
  let snips := UtilsDom.short_context_snippets prev_text cur_text 800
  let prev_snip := snips.1
  let cur_snip := snips.2
  let prompt := build_diff_prompt url goal domain prev_snip cur_snip added removed diff_lines
  let summary :=
    match summarize_with_llm use_bedrock llmCall prompt with
    | some res => res.summary_change.getD ""
    | none => local_summary_fallback url goal domain prev_text cur_text added removed diff_lines
  let score_10 := Importance.compute_importance_score added removed
    sim_text sim_visual goal domain keywords
  let label := Importance.label_from_score score_10
  let alert := Importance.alert_from_label label
  let has_change := decide (added + removed > 0) || decide (sim_visual < 98/100)
  let similarity := pyRound4 (sim_text * 6/10 + sim_visual * 4/10)
  pure
    { has_change := has_change
      text_added := added
      text_removed := removed
      similarity := similarity
      total_diff_lines := diff_lines
      summary_change := String.mk (summary.toList.take 500)
      importance := label
      import_score := score_10
      alert_criteria := alert }

/-- Serialization of a `ChangeResult` to the flat JSON wire object with
the literal field names required by §6 of the specification (string
escaping is omitted: it is injective on the summaries the engine emits
and plays no role in the determinism claim). -/
def serializeChangeResult (r : ChangeResult) : String :=
  "\x7b\"has_change\": " ++ (if r.has_change then "true" else "false") ++
  ", \"text_added\": " ++ toString r.text_added ++
  ", \"text_removed\": " ++ toString r.text_removed ++
  ", \"similarity\": " ++ fmtFixed 4 r.similarity ++
  ", \"total_diff_lines\": " ++ toString r.total_diff_lines ++
  ", \"summary_change\": \"" ++ r.summary_change ++ "\"" ++
  ", \"importance\": \"" ++ r.importance ++ "\"" ++
  ", \"import_score\": " ++ fmtFixed 2 r.import_score ++
  ", \"alert_criteria\": \"" ++ r.alert_criteria ++ "\"\x7d"

end Pipeline

/-! ## Auxiliary lemmas -/

theorem roundMono {x y : ℚ} (h : x ≤ y) : round x ≤ round y := by
  rw [round_eq, round_eq]
  exact Int.floor_le_floor (by linarith)

theorem pyRound2_nonneg {x : ℚ} (h : 0 ≤ x) : 0 ≤ pyRound2 x := by
  unfold pyRound2
  have h1 : (0 : ℤ) ≤ round (x * 100) := by
    have := roundMono (by linarith : (0 : ℚ) ≤ x * 100)
    simpa using this
  positivity

theorem pyRound2_le_ten {x : ℚ} (h : x ≤ 10) : pyRound2 x ≤ 10 := by
  unfold pyRound2
  have h1 : round (x * 100) ≤ round (1000 : ℚ) := roundMono (by linarith)
  have h2 : round (1000 : ℚ) = 1000 := by
    norm_num
  rw [h2] at h1
  rw [div_le_iff (by norm_num : (0:ℚ) < 100)]
  exact_mod_cast le_trans (by exact_mod_cast h1) (by norm_num)

theorem pyRound4_nonneg {x : ℚ} (h : 0 ≤ x) : 0 ≤ pyRound4 x := by
  unfold pyRound4
  have h1 : (0 : ℤ) ≤ round (x * 10000) := by
    have := roundMono (by linarith : (0 : ℚ) ≤ x * 10000)
    simpa using this
  positivity

theorem pyRound4_le_one {x : ℚ} (h : x ≤ 1) : pyRound4 x ≤ 1 := by
  unfold pyRound4
  have h1 : round (x * 10000) ≤ round (10000 : ℚ) := roundMono (by linarith)
  have h2 : round (10000 : ℚ) = 10000 := by norm_num
  rw [h2] at h1
  rw [div_le_iff (by norm_num : (0:ℚ) < 10000)]
  exact_mod_cast le_trans (by exact_mod_cast h1) (by norm_num)

theorem eqCount_nil {α : Type} : eqCount ([] : List (DiffOp α)) = 0 := rfl

theorem eqCount_cons_eq {α : Type} (x : α) (r : List (DiffOp α)) :
    eqCount (.eq x :: r) = eqCount r + 1 := rfl

theorem eqCount_cons_del {α : Type} (x : α) (r : List (DiffOp α)) :
    eqCount (.del x :: r) = eqCount r := rfl

theorem eqCount_cons_ins {α : Type} (x : α) (r : List (DiffOp α)) :
    eqCount (.ins x :: r) = eqCount r := rfl

/-- The matched count never exceeds either input length, for any fuel. -/
theorem eqCount_diffOpsGo_le {α : Type} [DecidableEq α] (fuel : Nat)
    (a b : List α) :
    eqCount (diffOpsGo fuel a b) ≤ a.length ∧
      eqCount (diffOpsGo fuel a b) ≤ b.length := by
  induction fuel generalizing a b with
  | zero => cases a <;> cases b <;> simp [diffOpsGo, eqCount_nil]
  | succ fuel ih =>
      cases a with
      | nil =>
          cases b with
          | nil => simp [diffOpsGo, eqCount_nil]
          | cons y ys =>
              simp only [diffOpsGo, eqCount_cons_ins, List.length_cons, List.length_nil]
              exact ⟨(ih [] ys).1, Nat.le_succ_of_le (ih [] ys).2⟩
      | cons x xs =>
          cases b with
          | nil =>
              simp only [diffOpsGo, eqCount_cons_del, List.length_cons, List.length_nil]
              exact ⟨Nat.le_succ_of_le (ih xs []).1, (ih xs []).2⟩
          | cons y ys =>
              simp only [diffOpsGo]
              by_cases hxy : x = y
              · simp only [if_pos hxy, eqCount_cons_eq, List.length_cons]
                have h1 := ih xs ys
                omega
              · simp only [if_neg hxy]
                by_cases hgt : eqCount (diffOpsGo fuel (x :: xs) ys) >
                    eqCount (diffOpsGo fuel xs (y :: ys))
                · simp only [if_pos hgt, eqCount_cons_ins]
                  have h1 := ih (x :: xs) ys
                  simp only [List.length_cons] at h1 ⊢
                  omega
                · simp only [if_neg hgt, eqCount_cons_del]
                  have h1 := ih xs (y :: ys)
                  simp only [List.length_cons] at h1 ⊢
                  omega

/-- The matched count never exceeds either input length. -/
theorem eqCount_diffOps_le {α : Type} [DecidableEq α] (a b : List α) :
    eqCount (diffOps a b) ≤ a.length ∧ eqCount (diffOps a b) ≤ b.length :=
  eqCount_diffOpsGo_le _ a b

theorem diffRatio_nonneg {α : Type} [DecidableEq α] (a b : List α) :
    0 ≤ diffRatio a b := by
  unfold diffRatio
  split
  · norm_num
  · positivity

theorem diffRatio_le_one {α : Type} [DecidableEq α] (a b : List α) :
    diffRatio a b ≤ 1 := by
  unfold diffRatio
  split
  · exact le_refl 1
  · rename_i ht
    rw [div_le_one (by exact_mod_cast Nat.pos_of_ne_zero ht)]
    have h := eqCount_diffOps_le a b
    have h2 : 2 * eqCount (diffOps a b) ≤ a.length + b.length := by omega
    exact_mod_cast h2

/-- With enough fuel, diffing a list against itself yields only
matches. -/
theorem diffOpsGo_self {α : Type} [DecidableEq α] (a : List α) (fuel : Nat)
    (h : a.length ≤ fuel) : diffOpsGo fuel a a = a.map DiffOp.eq := by
  induction a generalizing fuel with
  | nil => cases fuel <;> rfl
  | cons x xs ih =>
      cases fuel with
      | zero => simp at h
      | succ f =>
          have hf : xs.length ≤ f := by
            simp only [List.length_cons] at h
            omega
          simp [diffOpsGo, ih f hf]

/-- Diffing a list against itself yields only matches. -/
theorem diffOps_self {α : Type} [DecidableEq α] (a : List α) :
    diffOps a a = a.map DiffOp.eq :=
  diffOpsGo_self a _ (by omega)

theorem opcodeCountsGo_all_eq {α : Type} (a : List α) (acc : Nat × Nat) :
    opcodeCountsGo 0 0 acc (a.map DiffOp.eq) = acc := by
  induction a generalizing acc with
  | nil => simp [opcodeCountsGo, flushGap]
  | cons x xs ih => simp [opcodeCountsGo, flushGap, ih]

theorem opcodeCounts_self {α : Type} [DecidableEq α] (a : List α) :
    opcodeCounts (diffOps a a) = (0, 0) := by
  rw [opcodeCounts, diffOps_self, opcodeCountsGo_all_eq]

theorem ndiffCounts_all_eq {α : Type} (a : List α) :
    ndiffCounts (a.map DiffOp.eq) = (0, 0) := by
  induction a with
  | nil => rfl
  | cons x xs ih => simp [ndiffCounts, ih]

theorem eqCount_all_eq {α : Type} (a : List α) :
    eqCount (a.map DiffOp.eq) = a.length := by
  induction a with
  | nil => rfl
  | cons x xs ih => simp [eqCount_cons_eq, ih]

theorem diffRatio_self {α : Type} [DecidableEq α] (a : List α) :
    diffRatio a a = 1 := by
  unfold diffRatio
  split
  · rfl
  · rename_i ht
    rw [diffOps_self, eqCount_all_eq]
    have hpos : (0 : ℚ) < ((a.length + a.length : ℕ) : ℚ) := by
      exact_mod_cast Nat.pos_of_ne_zero ht
    rw [div_eq_one_iff_eq hpos.ne.symm]
    push_cast
    ring

/-- Bounds of the word-level similarity ratio of `text_diff_stats`. -/
theorem text_diff_stats_sim_bounds (p c : String) :
    0 ≤ (UtilsDom.text_diff_stats p c).2.2.2 ∧
      (UtilsDom.text_diff_stats p c).2.2.2 ≤ 1 := by
  unfold UtilsDom.text_diff_stats
  exact ⟨pyRound4_nonneg (diffRatio_nonneg _ _), pyRound4_le_one (diffRatio_le_one _ _)⟩

/-- Bounds of the perceptual similarity. -/
theorem perceptual_similarity_bounds (env : UtilsImage.ImageEnv)
    (p c : UtilsImage.PILImage) :
    0 ≤ UtilsImage.perceptual_similarity env p c ∧
      UtilsImage.perceptual_similarity env p c ≤ 1 := by
  unfold UtilsImage.perceptual_similarity
  constructor
  · exact pyRound4_nonneg (le_max_left _ _)
  · exact pyRound4_le_one (max_le (by norm_num) (min_le_left _ _))

/-! ## Claims -/

/-- C1: for every similarity `s`, mean numeric delta `d`, keyword-hit
count `k`, critical-phrase list `c`, goal-alignment value `a` and goal
string `g`, the primary scoring function `recalibrated_scoring` returns
the score
`round(min(10, m * 10 * ((1-s)*0.55 + min(1,d)*0.25 + min(1,k/5)*0.10 +
(c nonempty ? 1 : 0)*0.10 + a*0.05)), 2)`, where `m` is `1.3` when the
goal contains one of "regulatory", "trial", "safety", "clinical" as a
case-insensitive substring and `1.0` otherwise. -/
theorem C1_score_formula (s d a : ℚ) (k : ℕ) (c : List String) (g : String) :
    (CompareTexts.recalibrated_scoring s d k c a g).1 =
      pyRound2 (min 10
        ((if CompareTexts.multiplier_terms.any (fun kw => pyContains (pyLower g) kw)
            then 13/10 else 1) * 10 *
          ((1 - s) * 55/100 + min 1 d * 25/100 + min 1 ((k : ℚ)/5) * 10/100 +
            (if c ≠ [] then 1 else 0) * 10/100 + a * 5/100))) := by
  unfold CompareTexts.recalibrated_scoring
  by_cases hm : CompareTexts.multiplier_terms.any (fun kw => pyContains (pyLower g) kw) <;>
  by_cases hc : c = [] <;>
  simp [hm, hc] <;>
  · congr 2
    ring

/-- A concrete PIL resampler for witnesses: every downscale yields a
uniform gray grid. -/
def blankResize : UtilsImage.PILImage → Nat → Nat → List Nat :=
  fun _ w h => List.replicate (w * h) 100

/-- A concrete image environment for witnesses: nothing decodes, no file
exists, resampling is uniform. -/
def testImageEnv : UtilsImage.ImageEnv :=
  { decodeBytes := fun _ => none
    b64decode := fun _ => none
    fileExists := fun _ => false
    openPath := fun _ => none
    resizeGray := blankResize }

/-- C3 counterexample: the primary scoring function applied to a
similarity of `2.0` — a value an external summarizer payload can supply
through the merge logic, which passes `llm_result["similarity"]`
unvalidated into `recalibrated_scoring` — returns the score `-5.5`,
strictly below the claimed lower bound `0`. -/
theorem C3_negative_score_counterexample :
    (CompareTexts.recalibrated_scoring 2 0 0 [] 0 "").1 < 0 := by decide

/-- C3 (amended): for locally produced signal values — similarity within
`[0,1]`, nonnegative mean numeric delta, nonnegative goal alignment — the
primary scoring function returns a score within `[0,10]`; the alternate
scorer `compute_importance_score` returns a score within `[0,10]`
whenever both similarities lie in `[0,1]`; and the full pipeline's
returned blended similarity always lies within `[0,1]`.  (The unamended
claim fails: the primary scorer has no lower clamp, so external-summarizer
values outside these ranges can drive the score below `0`, and the merge
path can return an external similarity outside `[0,1]`.) -/
theorem C3_bounds_for_local_inputs :
    (∀ (s d a : ℚ) (k : ℕ) (c : List String) (g : String),
        0 ≤ s → s ≤ 1 → 0 ≤ d → 0 ≤ a →
        0 ≤ (CompareTexts.recalibrated_scoring s d k c a g).1 ∧
          (CompareTexts.recalibrated_scoring s d k c a g).1 ≤ 10) ∧
    (∀ (ta tr : ℕ) (st sv : ℚ) (goal domain : String) (kws : List String),
        0 ≤ st → st ≤ 1 → 0 ≤ sv → sv ≤ 1 →
        0 ≤ Importance.compute_importance_score ta tr st sv goal domain kws ∧
          Importance.compute_importance_score ta tr st sv goal domain kws ≤ 10) ∧
    (∀ (imgEnv : UtilsImage.ImageEnv) (extractText : String → String)
        (ub : Bool) (llmCall : String → Option Pipeline.LlmSummary)
        (pd cd : String) (pss css : UtilsImage.ImgRef)
        (goal domain url : String) (kws : List String)
        (r : Pipeline.ChangeResult),
        Pipeline.analyze_change imgEnv extractText ub llmCall
          pd cd pss css goal domain url kws = .ok r →
        0 ≤ r.similarity ∧ r.similarity ≤ 1) := by
  refine ⟨?_, ?_, ?_⟩
  · intro s d a k c g hs0 hs1 hd ha
    have hmind : (0:ℚ) ≤ min 1 d := le_min (by norm_num) hd
    have hmink : (0:ℚ) ≤ min 1 ((k : ℚ)/5) := le_min (by norm_num) (by positivity)
    unfold CompareTexts.recalibrated_scoring
    by_cases hm : CompareTexts.multiplier_terms.any (fun kw => pyContains (pyLower g) kw) <;>
    by_cases hc : c = [] <;>
    simp [hm, hc] <;>
    refine ⟨?_, pyRound2_le_ten (min_le_left _ _)⟩ <;>
    · apply pyRound2_nonneg
      refine le_min (by norm_num) ?_
      nlinarith [hmind, hmink]
  · intro ta tr st sv goal domain kws h0 h1 h2 h3
    have hw : 0 ≤ Importance.DomainWeights (pyLower domain) := by
      unfold Importance.DomainWeights
      split_ifs <;> norm_num
    have hbase0 : (0:ℚ) ≤ (1 - st) * 6/10 + (1 - sv) * 4/10 := by nlinarith
    unfold Importance.compute_importance_score
    constructor
    · apply pyRound2_nonneg
      apply mul_nonneg ?_ (by norm_num : (0:ℚ) ≤ 10)
      refine le_min (by norm_num) (mul_nonneg ?_ hw)
      split_ifs with h1' h2'
      · nlinarith [hbase0, Nat.cast_nonneg (α := ℚ) ((kws.filter
          (fun k => pyContains (pyLower goal) (pyLower k))).length)]
      · exact hbase0
      · exact hbase0
    · apply pyRound2_le_ten
      have hle := min_le_left (1 : ℚ)
        ((if kws ≠ [] then
            (if ((kws.filter (fun k => pyContains (pyLower goal) (pyLower k))).length ≠ 0)
              then (1 - st) * 6/10 + (1 - sv) * 4/10 +
                5/100 * (((kws.filter (fun k => pyContains (pyLower goal) (pyLower k))).length : ℕ) : ℚ)
              else (1 - st) * 6/10 + (1 - sv) * 4/10)
          else (1 - st) * 6/10 + (1 - sv) * 4/10) * Importance.DomainWeights (pyLower domain))
      nlinarith [hle]
  · intro imgEnv extractText ub llmCall pd cd pss css goal domain url kws r h
    cases hp : UtilsImage.load_image imgEnv pss with
    | error e =>
        unfold Pipeline.analyze_change at h
        rw [hp] at h
        simp [Bind.bind, Except.bind] at h
    | ok pi =>
        cases hcc : UtilsImage.load_image imgEnv css with
        | error e =>
            unfold Pipeline.analyze_change at h
            rw [hp, hcc] at h
            simp [Bind.bind, Except.bind] at h
        | ok ci =>
            unfold Pipeline.analyze_change at h
            rw [hp, hcc] at h
            simp only [Bind.bind, Except.bind, pure, Except.pure, Except.ok.injEq] at h
            subst h
            have hst := text_diff_stats_sim_bounds (extractText pd) (extractText cd)
            have hsv := perceptual_similarity_bounds imgEnv pi ci
            constructor
            · exact pyRound4_nonneg (by nlinarith [hst.1, hsv.1])
            · exact pyRound4_le_one (by nlinarith [hst.2, hsv.2])

/-- C4 counterexample: the classification is applied to the score before
rounding, so the returned (rounded) score can sit exactly on a threshold
while carrying the label of the interval below it.  With similarity
`0.1824` (and all other signals zero) the raw score is `4.4968`,
classified "low", but the returned rounded score is exactly `4.5` — so a
returned score of exactly 4.5 is labelled "low", not "medium" as the
claim requires. -/
theorem C4_boundary_counterexample :
    CompareTexts.recalibrated_scoring (1824/10000) 0 0 [] 0 "" =
      (45/10, "low", "low") := by
  decide

/-- C4 (amended): the importance and alert labels returned by
`recalibrated_scoring` are jointly determined by the half-open threshold
ladder applied to the raw (pre-rounding) score
`min(10, m * 10 * base)`: below 4.5 gives "low"/"low", from 4.5 up to but
excluding 7.0 gives "medium"/"med", and 7.0 or above gives
"critical"/"crit"; a raw score of exactly 4.5 classifies as
"medium"/"med" and exactly 7.0 as "critical"/"crit".  (The unamended
claim read the ladder against the returned rounded score, which the
counterexample refutes.) -/
theorem C4_threshold_ladder_on_raw_score (s d a : ℚ) (k : ℕ)
    (c : List String) (g : String) :
    (CompareTexts.recalibrated_scoring s d k c a g).2 =
      (if min 10
          ((if CompareTexts.multiplier_terms.any (fun kw => pyContains (pyLower g) kw)
              then 13/10 else 1) * 10 *
            ((1 - s) * 55/100 + min 1 d * 25/100 + min 1 ((k : ℚ)/5) * 10/100 +
              (if c ≠ [] then 1 else 0) * 10/100 + a * 5/100)) < 45/10
        then ("low", "low")
        else if min 10
          ((if CompareTexts.multiplier_terms.any (fun kw => pyContains (pyLower g) kw)
              then 13/10 else 1) * 10 *
            ((1 - s) * 55/100 + min 1 d * 25/100 + min 1 ((k : ℚ)/5) * 10/100 +
              (if c ≠ [] then 1 else 0) * 10/100 + a * 5/100)) < 7
        then ("medium", "med")
        else ("critical", "crit")) := by
  unfold CompareTexts.recalibrated_scoring
  by_cases hm : CompareTexts.multiplier_terms.any (fun kw => pyContains (pyLower g) kw) <;>
  by_cases hc : c = [] <;>
  simp [hm, hc] <;>
  ring_nf

/-- C2 counterexample: the merge logic also takes `similarity` from the
external payload.  With identical texts the local analysis computes
similarity `1.0`, yet an external payload carrying `similarity = 0.42`
ends up verbatim in the merged output — a field other than the narrative
summary, the key-insights list and the goal-alignment value coming from
the external source, contradicting the claim's "only" list. -/
theorem C2_external_similarity_counterexample :
    (CompareTexts.bedrock_merge "t" "m" { similarity := some (42/100) }
      "g" "a" "a").similarity = 42/100 ∧
    (CompareTexts.enhanced_diff_analysis "t" "g" "a" "a").similarity = 1 := by
  constructor <;> decide

/-- C2 (amended): whenever the external summarization result is used, the
merged output's `text_added`, `text_removed` and `total_diff_lines` equal
those of the local deterministic analysis verbatim; the narrative summary,
key-insights list, goal-alignment value — and additionally `similarity`,
`has_change` and `reasoning` — come from the external payload when
present (falling back to the local values); and the final score,
importance and alert are always recomputed locally by the fixed scoring
formula, applied to the merged similarity and goal-alignment together
with the locally computed KPI delta, keyword hits and critical phrases. -/
theorem C2_merge_preserves_local_counts (now mid : String)
    (llm : CompareTexts.LlmResult) (goal prev cur : String) :
    (CompareTexts.bedrock_merge now mid llm goal prev cur).text_added =
      (CompareTexts.enhanced_diff_analysis now goal prev cur).text_added ∧
    (CompareTexts.bedrock_merge now mid llm goal prev cur).text_removed =
      (CompareTexts.enhanced_diff_analysis now goal prev cur).text_removed ∧
    (CompareTexts.bedrock_merge now mid llm goal prev cur).total_diff_lines =
      (CompareTexts.enhanced_diff_analysis now goal prev cur).total_diff_lines ∧
    (CompareTexts.bedrock_merge now mid llm goal prev cur).similarity =
      llm.similarity.getD (CompareTexts.enhanced_diff_analysis now goal prev cur).similarity ∧
    (CompareTexts.bedrock_merge now mid llm goal prev cur).has_change =
      llm.has_change.getD (CompareTexts.enhanced_diff_analysis now goal prev cur).has_change ∧
    (CompareTexts.bedrock_merge now mid llm goal prev cur).summary_change =
      llm.summary_change.getD (CompareTexts.enhanced_diff_analysis now goal prev cur).summary_change ∧
    (CompareTexts.bedrock_merge now mid llm goal prev cur).key_insights =
      llm.key_insights.getD (CompareTexts.enhanced_diff_analysis now goal prev cur).key_insights ∧
    (CompareTexts.bedrock_merge now mid llm goal prev cur).goal_alignment =
      llm.goal_alignment.getD (CompareTexts.enhanced_diff_analysis now goal prev cur).goal_alignment ∧
    (CompareTexts.bedrock_merge now mid llm goal prev cur).reasoning =
      llm.reasoning.getD (CompareTexts.enhanced_diff_analysis now goal prev cur).reasoning ∧
    ((CompareTexts.bedrock_merge now mid llm goal prev cur).import_score,
     (CompareTexts.bedrock_merge now mid llm goal prev cur).importance,
     (CompareTexts.bedrock_merge now mid llm goal prev cur).alert_criteria) =
      CompareTexts.recalibrated_scoring
        ((CompareTexts.bedrock_merge now mid llm goal prev cur).similarity)
        (CompareTexts.compute_numeric_delta
          (CompareTexts.extract_numbers_with_labels prev)
          (CompareTexts.extract_numbers_with_labels cur)).1
        (CompareTexts.count_keyword_hits (CompareTexts.compute_goal_keywords goal)
          (prev ++ cur) [])
        (CompareTexts.detect_critical_phrases prev cur)
        ((CompareTexts.bedrock_merge now mid llm goal prev cur).goal_alignment)
        goal :=
  ⟨rfl, rfl, rfl, rfl, rfl, rfl, rfl, rfl, rfl, rfl⟩

/-- The `ChangeResult` the pipeline produces on empty DOMs, absent
screenshots and the test environment: no change, similarity 1. -/
def blankPipelineResult : Pipeline.ChangeResult :=
  { has_change := false
    text_added := 0
    text_removed := 0
    similarity := 1
    total_diff_lines := 0
    summary_change := "Content modified on d page (u): Minor formatting change. (0 diff lines)."
    importance := "low"
    import_score := 0
    alert_criteria := "low" }

/-- Concrete pipeline run used by witnesses. -/
theorem analyze_blank_eq :
    Pipeline.analyze_change testImageEnv (fun s => s) false (fun _ => none)
      "" "" .pynone .pynone "g" "d" "u" [] = .ok blankPipelineResult := by
  rfl

/-- C3 witness: the amended bounds instantiated at concrete inputs. -/
theorem C3_bounds_witness :
    (0 ≤ (CompareTexts.recalibrated_scoring (1/2) (1/4) 2 [] (1/2) "goal").1 ∧
      (CompareTexts.recalibrated_scoring (1/2) (1/4) 2 [] (1/2) "goal").1 ≤ 10) ∧
    (0 ≤ Importance.compute_importance_score 3 1 (1/2) (3/4) "g" "regulatory" ["x"] ∧
      Importance.compute_importance_score 3 1 (1/2) (3/4) "g" "regulatory" ["x"] ≤ 10) ∧
    (0 ≤ blankPipelineResult.similarity ∧ blankPipelineResult.similarity ≤ 1) :=
  ⟨C3_bounds_for_local_inputs.1 (1/2) (1/4) (1/2) 2 [] "goal"
      (by norm_num) (by norm_num) (by norm_num) (by norm_num),
   C3_bounds_for_local_inputs.2.1 3 1 (1/2) (3/4) "g" "regulatory" ["x"]
      (by norm_num) (by norm_num) (by norm_num) (by norm_num),
   C3_bounds_for_local_inputs.2.2 testImageEnv (fun s => s) false (fun _ => none)
      "" "" .pynone .pynone "g" "d" "u" [] blankPipelineResult analyze_blank_eq⟩

/-- C5 counterexample: `load_image` on a raw byte payload the external
PIL decoder rejects (here the single byte `0`, which is not a valid image)
raises instead of resolving to the blank placeholder: the `bytes` branch
calls `Image.open` outside any `try`. -/
theorem C5_undecodable_bytes_counterexample :
    UtilsImage.load_image testImageEnv (.bytes [0]) = .error () := rfl

/-- C5 (amended): `load_image` resolves an absent (`None`) or empty
reference to the blank white 64×64 placeholder, and an arbitrary string
that is neither a data URI nor an existing file path never raises — if it
fails to decode as base64 it resolves to the placeholder.  (The unamended
totality claim fails: raw bytes, data URIs and existing file paths that
the external decoder rejects propagate the exception, as only the
trailing plain-base64 branch is wrapped in `try`.) -/
theorem C5_placeholder_for_missing_and_fallback (env : UtilsImage.ImageEnv) :
    UtilsImage.load_image env .pynone = .ok .blank64 ∧
    UtilsImage.load_image env (.str "") = .ok .blank64 ∧
    (∀ s : String, s ≠ "" →
      ¬ (("data:image").toList.isPrefixOf (pyStrip s.toList)) →
      env.fileExists s = false →
      (env.b64decode s).bind env.decodeBytes = none →
      UtilsImage.load_image env (.str s) = .ok .blank64) := by
  refine ⟨rfl, rfl, ?_⟩
  intro s hne hd hf hb
  unfold UtilsImage.load_image
  dsimp only
  rw [if_neg hne, if_neg (by simpa using hd), if_neg (by simp [hf])]
  cases hb64 : env.b64decode s with
  | none => rfl
  | some bs =>
      rw [hb64] at hb
      simp only [Option.bind] at hb
      dsimp only
      rw [hb]

/-- C5 witness: the amended behavior at concrete references under the
test environment (whose decoder rejects everything). -/
theorem C5_placeholder_witness :
    UtilsImage.load_image testImageEnv .pynone = .ok .blank64 ∧
    UtilsImage.load_image testImageEnv (.str "") = .ok .blank64 ∧
    UtilsImage.load_image testImageEnv (.str "zzz") = .ok .blank64 := by
  have h := C5_placeholder_for_missing_and_fallback testImageEnv
  exact ⟨h.1, h.2.1, h.2.2 "zzz" (by decide) (by decide) rfl rfl⟩

/-- C6: with external summarization disabled (`USE_BEDROCK` false) the
pipeline is deterministic: the serialized `ChangeResult` JSON is a pure
function of the inputs — in particular it is byte-identical across any
two behaviors of the external summarizer, which is never consulted, and
the embedding carries no timestamp, randomness or ambient state. -/
theorem C6_determinism_summarizer_disabled
    (imgEnv : UtilsImage.ImageEnv) (extractText : String → String)
    (llm1 llm2 : String → Option Pipeline.LlmSummary)
    (prev_dom cur_dom : String) (prev_ss cur_ss : UtilsImage.ImgRef)
    (goal domain url : String) (keywords : List String) :
    (Pipeline.analyze_change imgEnv extractText false llm1
        prev_dom cur_dom prev_ss cur_ss goal domain url keywords).map
      Pipeline.serializeChangeResult =
    (Pipeline.analyze_change imgEnv extractText false llm2
        prev_dom cur_dom prev_ss cur_ss goal domain url keywords).map
      Pipeline.serializeChangeResult := rfl

theorem mem_sortedInsert (x y : String) (l : List String) (h : y ∈ l) :
    y ∈ sortedInsert x l := by
  induction l with
  | nil => simp at h
  | cons z rest ih =>
      unfold sortedInsert
      split
      · simp [h]
      · rcases List.mem_cons.mp h with h1 | h2
        · simp [h1]
        · simp [ih h2]

theorem self_mem_sortedInsert (x : String) (l : List String) :
    x ∈ sortedInsert x l := by
  induction l with
  | nil => simp [sortedInsert]
  | cons z rest ih =>
      unfold sortedInsert
      split
      · simp
      · simp [ih]

theorem mem_sortStrings {y : String} {l : List String} (h : y ∈ l) :
    y ∈ sortStrings l := by
  induction l with
  | nil => simp at h
  | cons z rest ih =>
      unfold sortStrings
      rcases List.mem_cons.mp h with h1 | h2
      · rw [h1]; exact self_mem_sortedInsert z _
      · exact mem_sortedInsert z y _ (ih h2)

theorem kpiGet_mem_keys {p : List (String × ℚ)} {k : String} {v : ℚ}
    (h : CompareTexts.kpiGet p k = some v) : k ∈ p.map (fun e => e.1) := by
  unfold CompareTexts.kpiGet at h
  cases hf : p.find? (fun e => e.1 = k) with
  | none => rw [hf] at h; simp at h
  | some e =>
      have hm := List.mem_of_find?_eq_some hf
      have hp := List.find?_some hf
      simp only [decide_eq_true_eq] at hp
      exact hp ▸ List.mem_map_of_mem _ hm

/-- If both KPI maps carry Phase values 2 and 3, the numeric delta emits
the "Phase 2 → 3" insight. -/
theorem phase_insight_mem {p c : List (String × ℚ)}
    (hp : CompareTexts.kpiGet p "Phase" = some 2)
    (hc : CompareTexts.kpiGet c "Phase" = some 3) :
    "Phase 2 → 3" ∈ (CompareTexts.compute_numeric_delta p c).2 := by
  unfold CompareTexts.compute_numeric_delta
  simp only
  have hmem : "Phase" ∈ CompareTexts.commonKeysSorted p c := by
    unfold CompareTexts.commonKeysSorted
    apply mem_sortStrings
    apply List.mem_filter.mpr
    refine ⟨kpiGet_mem_keys hp, ?_⟩
    simp [hc]
  have hval : ((|(2:ℚ) - 3| > 1/100)) := by norm_num
  have hins : CompareTexts.kpiInsight "Phase" 2 3 = "Phase 2 → 3" := by decide
  apply List.mem_map.mpr
  refine ⟨(|(3:ℚ) - 2| / max (max |(2:ℚ)| |(3:ℚ)|) 1, "Phase 2 → 3"), ?_, rfl⟩
  unfold CompareTexts.deltaEntries
  apply List.mem_filterMap.mpr
  refine ⟨"Phase", hmem, ?_⟩
  rw [hp, hc]
  dsimp only
  rw [if_pos hval, hins]

/-- C7 counterexample: the loose conditions of the claim (previous text
containing "Phase 2" within the first 500 characters, accompanied by the
word "study") are met by a text whose first trial/study-anchored phase
mention is "phase 3"; extraction then yields Phase=3.0 for the previous
text, not 2.0, and no "Phase 2 → 3" insight is emitted. -/
theorem C7_phase_extraction_counterexample :
    pyContains "Trial phase 3. Study Phase 2 data" "Phase 2" = true ∧
    ("Trial phase 3. Study Phase 2 data").length ≤ 500 ∧
    pyContains (pyLower "Trial phase 3. Study Phase 2 data") "study" = true ∧
    pyContains "Study Phase 3 data" "Phase 3" = true ∧
    pyContains (pyLower "Study Phase 3 data") "study" = true ∧
    CompareTexts.kpiGet (CompareTexts.extract_numbers_with_labels
      "Trial phase 3. Study Phase 2 data") "Phase" = some 3 ∧
    ¬ ("Phase 2 → 3" ∈ (CompareTexts.compute_numeric_delta
        (CompareTexts.extract_numbers_with_labels "Trial phase 3. Study Phase 2 data")
        (CompareTexts.extract_numbers_with_labels "Study Phase 3 data")).2) := by
  decide

/-- C7 (amended): if additionally the leftmost trial/study-anchored phase
mention in the first 500 characters of the previous text reads phase 2
(matching "phase ii" or "phase 2" and not "phase iii"/"phase 3"), and the
one in the current text reads phase 3, then KPI extraction yields
Phase=2.0 from the previous text and Phase=3.0 from the current text, and
the numeric-delta computation emits the insight string "Phase 2 → 3". -/
theorem C7_phase_delta_amended (prev cur : String) (m m' : List Char)
    (hp : CompareTexts.overviewSearch ((pyLower prev).toList.take 500) = some m)
    (h3 : containsSub ("phase iii").toList m = false)
    (h3' : containsSub ("phase 3").toList m = false)
    (h2 : (containsSub ("phase ii").toList m || containsSub ("phase 2").toList m) = true)
    (hc : CompareTexts.overviewSearch ((pyLower cur).toList.take 500) = some m')
    (hc3 : (containsSub ("phase iii").toList m' || containsSub ("phase 3").toList m') = true) :
    CompareTexts.kpiGet (CompareTexts.extract_numbers_with_labels prev) "Phase" = some 2 ∧
    CompareTexts.kpiGet (CompareTexts.extract_numbers_with_labels cur) "Phase" = some 3 ∧
    "Phase 2 → 3" ∈ (CompareTexts.compute_numeric_delta
      (CompareTexts.extract_numbers_with_labels prev)
      (CompareTexts.extract_numbers_with_labels cur)).2 := by
  have hrulep : CompareTexts.phaseRule ((pyLower prev).toList) = some 2 := by
    unfold CompareTexts.phaseRule
    rw [hp]
    dsimp only
    have hcond1 : (containsSub ("phase iii").toList m ||
        containsSub ("phase 3").toList m) = false := by
      rw [h3, h3']
      rfl
    rw [hcond1, if_neg (by simp), h2, if_pos rfl]
  have hrulec : CompareTexts.phaseRule ((pyLower cur).toList) = some 3 := by
    unfold CompareTexts.phaseRule
    rw [hc]
    dsimp only
    rw [hc3, if_pos rfl]
  have hgetp : CompareTexts.kpiGet
      (CompareTexts.extract_numbers_with_labels prev) "Phase" = some 2 := by
    unfold CompareTexts.extract_numbers_with_labels
    dsimp only
    rw [hrulep]
    rfl
  have hgetc : CompareTexts.kpiGet
      (CompareTexts.extract_numbers_with_labels cur) "Phase" = some 3 := by
    unfold CompareTexts.extract_numbers_with_labels
    dsimp only
    rw [hrulec]
    rfl
  exact ⟨hgetp, hgetc, phase_insight_mem hgetp hgetc⟩

/-- C7 witness: the amended statement at texts whose anchored phase
mentions are exactly "phase 2" and "phase 3". -/
theorem C7_phase_delta_witness :
    CompareTexts.kpiGet (CompareTexts.extract_numbers_with_labels
      "Study phase 2 trial data") "Phase" = some 2 ∧
    CompareTexts.kpiGet (CompareTexts.extract_numbers_with_labels
      "Study phase 3 trial data") "Phase" = some 3 ∧
    "Phase 2 → 3" ∈ (CompareTexts.compute_numeric_delta
      (CompareTexts.extract_numbers_with_labels "Study phase 2 trial data")
      (CompareTexts.extract_numbers_with_labels "Study phase 3 trial data")).2 :=
  C7_phase_delta_amended "Study phase 2 trial data" "Study phase 3 trial data"
    ("study phase 2").toList ("study phase 3").toList
    (by decide) (by decide) (by decide) (by decide) (by decide) (by decide)



theorem head?_dropWhile_ws {l : List Char} {c : Char}
    (h : (l.dropWhile Char.isWhitespace).head? = some c) :
    c.isWhitespace = false := by
  have hh := List.head?_dropWhile_not Char.isWhitespace l
  rw [h] at hh
  exact hh

theorem getLast?_of_suffix_ne_nil {w v : List Char} (hv : v ≠ []) :
    (w ++ v).getLast? = v.getLast? := by
  rw [List.getLast?_append]
  cases hg : v.getLast? with
  | none => exact absurd (List.getLast?_eq_none_iff.mp hg) hv
  | some c => rfl

theorem pyStrip_head_not_ws {t : List Char} {c : Char}
    (h : (pyStrip t).head? = some c) : c.isWhitespace = false := by
  unfold pyStrip at h
  rw [List.head?_reverse] at h
  set u := t.dropWhile Char.isWhitespace with hu
  set v := u.reverse.dropWhile Char.isWhitespace with hv
  have hvne : v ≠ [] := by
    intro hnil
    rw [hnil] at h
    simp at h
  have hdecomp : u.reverse.takeWhile Char.isWhitespace ++ v = u.reverse := by
    rw [hv]
    exact List.takeWhile_append_dropWhile Char.isWhitespace u.reverse
  have h2 : u.reverse.getLast? = some c := by
    rw [← hdecomp, getLast?_of_suffix_ne_nil hvne]
    exact h
  rw [List.getLast?_eq_head?_reverse, List.reverse_reverse] at h2
  exact head?_dropWhile_ws h2

theorem pyStrip_getLast_not_ws {t : List Char} {c : Char}
    (h : (pyStrip t).getLast? = some c) : c.isWhitespace = false := by
  unfold pyStrip at h
  rw [List.getLast?_eq_head?_reverse, List.reverse_reverse] at h
  exact head?_dropWhile_ws h

theorem pyStrip_eq_self {l : List Char}
    (h1 : ∀ c, l.head? = some c → c.isWhitespace = false)
    (h2 : ∀ c, l.getLast? = some c → c.isWhitespace = false) :
    pyStrip l = l := by
  unfold pyStrip
  have hd : l.dropWhile Char.isWhitespace = l := by
    cases l with
    | nil => rfl
    | cons c r =>
        rw [List.dropWhile_cons]
        simp [h1 c rfl]
  rw [hd]
  have hr : l.reverse.dropWhile Char.isWhitespace = l.reverse := by
    cases hrev : l.reverse with
    | nil => rfl
    | cons c r =>
        rw [List.dropWhile_cons]
        have hg : l.getLast? = some c := by
          rw [List.getLast?_eq_head?_reverse, hrev]
          rfl
        simp [h2 c hg]
  rw [hr, List.reverse_reverse]

theorem pyStrip_idem (t : List Char) : pyStrip (pyStrip t) = pyStrip t :=
  pyStrip_eq_self (fun _ h => pyStrip_head_not_ws h)
    (fun _ h => pyStrip_getLast_not_ws h)



theorem head?_take_pos {l : List Char} {f : Nat} (hf : 1 ≤ f) :
    (l.take f).head? = l.head? := by
  cases l with
  | nil => simp
  | cons c r =>
      cases f with
      | zero => omega
      | succ n => rfl

theorem getLast?_drop_ne_nil {s : List Char} {n : Nat} (h : s.drop n ≠ []) :
    (s.drop n).getLast? = s.getLast? := by
  conv_rhs => rw [← List.take_append_drop n s]
  rw [getLast?_of_suffix_ne_nil h]

/-- Stability of the head/tail slices of a truncation result under a
second truncation. -/
theorem slices_stable (f l : Nat) (sep s : List Char)
    (hf : 1 ≤ f) (hl : 1 ≤ l) (hfs : f ≤ s.length) (hls : l ≤ s.length)
    (hs : pyStrip s = s) :
    pyStrip (s.take f ++ sep ++ s.drop (s.length - l)) =
      s.take f ++ sep ++ s.drop (s.length - l) ∧
    (s.take f ++ sep ++ s.drop (s.length - l)).length = f + sep.length + l ∧
    (s.take f ++ sep ++ s.drop (s.length - l)).take f = s.take f ∧
    (s.take f ++ sep ++ s.drop (s.length - l)).drop
      (f + sep.length) = s.drop (s.length - l) := by
  have hA : (s.take f).length = f := by
    rw [List.length_take]
    omega
  have hB : (s.drop (s.length - l)).length = l := by
    rw [List.length_drop]
    omega
  have hBne : s.drop (s.length - l) ≠ [] := by
    intro h
    rw [h] at hB
    simp at hB
    omega
  have hAne : s.take f ≠ [] := by
    intro h
    rw [h] at hA
    simp at hA
    omega
  refine ⟨?_, ?_, ?_, ?_⟩
  · apply pyStrip_eq_self
    · intro c hc
      have hhead : s.head? = some c := by
        rw [List.append_assoc, List.head?_append, head?_take_pos hf] at hc
        cases hh : s.head? with
        | none =>
            exfalso
            rw [List.head?_eq_none_iff] at hh
            subst hh
            simp at hfs
            omega
        | some d =>
            rw [hh] at hc
            simpa using hc
      exact pyStrip_head_not_ws (t := s) (by rw [hs]; exact hhead)
    · intro c hc
      have hlast : s.getLast? = some c := by
        rw [getLast?_of_suffix_ne_nil hBne, getLast?_drop_ne_nil hBne] at hc
        exact hc
      exact pyStrip_getLast_not_ws (t := s) (by rw [hs]; exact hlast)
  · simp [List.length_append, hA, hB]
    omega
  · rw [List.append_assoc]
    exact List.take_left' hA
  · apply List.drop_left'
    rw [List.length_append, hA]



theorem trim_small (max : Nat) (t : List Char)
    (hs : pyStrip t = t) (hle : t.length ≤ max) :
    UtilsDom.trim max t = t := by
  unfold UtilsDom.trim
  rw [hs, if_pos hle]

theorem trim_idem (max : Nat) (hmax : 2 ≤ max) (t : List Char) :
    UtilsDom.trim max (UtilsDom.trim max t) = UtilsDom.trim max t := by
  by_cases hle : (pyStrip t).length ≤ max
  · have h1 : UtilsDom.trim max t = pyStrip t := by
      unfold UtilsDom.trim
      rw [if_pos hle]
    rw [h1]
    exact trim_small max (pyStrip t) (pyStrip_idem t) hle
  · have hh1 : 1 ≤ max / 2 := by omega
    have hlen : max < (pyStrip t).length := by omega
    have hsl := slices_stable (max / 2) (max / 2) (" ... ").toList (pyStrip t)
      hh1 hh1 (by omega) (by omega) (pyStrip_idem t)
    have hsep5 : (" ... ").toList.length = 5 := by decide
    have h1 : UtilsDom.trim max t =
        (pyStrip t).take (max / 2) ++ (" ... ").toList ++
          (pyStrip t).drop ((pyStrip t).length - max / 2) := by
      unfold UtilsDom.trim UtilsDom.tailSlice
      dsimp only
      rw [if_neg hle, if_neg (by omega : ¬ max / 2 = 0)]
    rw [h1]
    unfold UtilsDom.trim UtilsDom.tailSlice
    dsimp only
    rw [hsl.1]
    have hrlen : ((pyStrip t).take (max / 2) ++ (" ... ").toList ++
        (pyStrip t).drop ((pyStrip t).length - max / 2)).length =
        max / 2 + 5 + max / 2 := by
      rw [hsl.2.1, hsep5]
    rw [if_neg (by omega), if_neg (by omega)]
    have hd : ((pyStrip t).take (max / 2) ++ (" ... ").toList ++
        (pyStrip t).drop ((pyStrip t).length - max / 2)).length - max / 2 =
        max / 2 + (" ... ").toList.length := by
      rw [hrlen, hsep5]
      omega
    rw [hd, hsl.2.2.1, hsl.2.2.2]



theorem smart_small (max : Nat) (t : List Char)
    (hs : pyStrip t = t) (hle : t.length ≤ max) :
    BedrockPrompt.smart_truncate t max = t := by
  unfold BedrockPrompt.smart_truncate
  rw [hs, if_pos hle]

theorem smart_idem (max : Nat) (hmax : 3 ≤ max) (t : List Char) :
    BedrockPrompt.smart_truncate (BedrockPrompt.smart_truncate t max) max =
      BedrockPrompt.smart_truncate t max := by
  by_cases hle : (pyStrip t).length ≤ max
  · have h1 : BedrockPrompt.smart_truncate t max = pyStrip t := by
      unfold BedrockPrompt.smart_truncate
      rw [if_pos hle]
    rw [h1]
    exact smart_small max (pyStrip t) (pyStrip_idem t) hle
  · have hf1 : 1 ≤ max * 6 / 10 := by omega
    have hl1 : 1 ≤ max * 4 / 10 := by omega
    have hfb : max * 6 / 10 ≤ max := by omega
    have hlb : max * 4 / 10 ≤ max := by omega
    have hlen : max < (pyStrip t).length := by omega
    have hsl := slices_stable (max * 6 / 10) (max * 4 / 10)
      BedrockPrompt.truncMarker (pyStrip t)
      hf1 hl1 (by omega) (by omega) (pyStrip_idem t)
    have hsep : BedrockPrompt.truncMarker.length = 31 := by decide
    have h1 : BedrockPrompt.smart_truncate t max =
        (pyStrip t).take (max * 6 / 10) ++ BedrockPrompt.truncMarker ++
          (pyStrip t).drop ((pyStrip t).length - max * 4 / 10) := by
      unfold BedrockPrompt.smart_truncate UtilsDom.tailSlice
      dsimp only
      rw [if_neg hle, if_neg (by omega : ¬ max * 4 / 10 = 0)]
    rw [h1]
    unfold BedrockPrompt.smart_truncate UtilsDom.tailSlice
    dsimp only
    rw [hsl.1]
    have hrlen : ((pyStrip t).take (max * 6 / 10) ++ BedrockPrompt.truncMarker ++
        (pyStrip t).drop ((pyStrip t).length - max * 4 / 10)).length =
        max * 6 / 10 + 31 + max * 4 / 10 := by
      rw [hsl.2.1, hsep]
    rw [if_neg (by omega), if_neg (by omega)]
    have hd : ((pyStrip t).take (max * 6 / 10) ++ BedrockPrompt.truncMarker ++
        (pyStrip t).drop ((pyStrip t).length - max * 4 / 10)).length - max * 4 / 10 =
        max * 6 / 10 + BedrockPrompt.truncMarker.length := by
      rw [hrlen, hsep]
      omega
    rw [hd, hsl.2.2.1, hsl.2.2.2]


/-- C8 counterexample: the truncation functions strip whitespace first,
so a string within the limit but carrying surrounding whitespace is not
returned unchanged. -/
theorem C8_strip_counterexample :
    (" a").toList.length ≤ 1200 ∧
    UtilsDom.trim 1200 ((" a").toList) ≠ (" a").toList := by
  decide

/-- C8 (amended): a string that is already whitespace-stripped and within
the character limit is returned unchanged by both truncation functions
(other strings are stripped first); and both truncations are idempotent —
applying `trim` (for limits ≥ 2) or `_smart_truncate` (for limits ≥ 3) a
second time returns the once-truncated result unchanged. -/
theorem C8_truncation_amended :
    (∀ (max : Nat) (t : List Char), pyStrip t = t → t.length ≤ max →
      UtilsDom.trim max t = t ∧ BedrockPrompt.smart_truncate t max = t) ∧
    (∀ (max : Nat), 2 ≤ max → ∀ t : List Char,
      UtilsDom.trim max (UtilsDom.trim max t) = UtilsDom.trim max t) ∧
    (∀ (max : Nat), 3 ≤ max → ∀ t : List Char,
      BedrockPrompt.smart_truncate (BedrockPrompt.smart_truncate t max) max =
        BedrockPrompt.smart_truncate t max) :=
  ⟨fun max t hs hle => ⟨trim_small max t hs hle, smart_small max t hs hle⟩,
   fun max hmax t => trim_idem max hmax t,
   fun max hmax t => smart_idem max hmax t⟩

/-- C8 witness: the amended statement at concrete strings and limits. -/
theorem C8_truncation_witness :
    (UtilsDom.trim 1200 (("ab").toList) = ("ab").toList ∧
      BedrockPrompt.smart_truncate (("ab").toList) 1200 = ("ab").toList) ∧
    UtilsDom.trim 4 (UtilsDom.trim 4 (("abcdefgh").toList)) =
      UtilsDom.trim 4 (("abcdefgh").toList) ∧
    BedrockPrompt.smart_truncate
        (BedrockPrompt.smart_truncate (("abcdefgh").toList) 5) 5 =
      BedrockPrompt.smart_truncate (("abcdefgh").toList) 5 :=
  ⟨C8_truncation_amended.1 1200 (("ab").toList) (by decide) (by decide),
   C8_truncation_amended.2.1 4 (by norm_num) (("abcdefgh").toList),
   C8_truncation_amended.2.2 5 (by norm_num) (("abcdefgh").toList)⟩

/-- C9: in the full pipeline, `has_change` is true exactly when the word
diff added or removed something or the visual similarity is below 0.98;
in particular, DOMs with identical extracted texts and screenshots of
perceptual similarity at least 0.98 give `has_change = false` even when
the raw HTML differs.  The enhanced goal-aware path additionally sets
`has_change` when the text similarity is below 0.98 or a new critical
phrase is detected. -/
theorem C9_has_change_rule :
    (∀ (imgEnv : UtilsImage.ImageEnv) (extractText : String → String)
        (ub : Bool) (llmCall : String → Option Pipeline.LlmSummary)
        (pd cd : String) (pss css : UtilsImage.ImgRef)
        (goal domain url : String) (kws : List String)
        (pi ci : UtilsImage.PILImage) (r : Pipeline.ChangeResult),
        UtilsImage.load_image imgEnv pss = .ok pi →
        UtilsImage.load_image imgEnv css = .ok ci →
        Pipeline.analyze_change imgEnv extractText ub llmCall
          pd cd pss css goal domain url kws = .ok r →
        ((r.has_change = true ↔
          (r.text_added + r.text_removed > 0 ∨
            UtilsImage.perceptual_similarity imgEnv pi ci < 98/100)) ∧
         (extractText pd = extractText cd →
          98/100 ≤ UtilsImage.perceptual_similarity imgEnv pi ci →
          r.has_change = false))) ∧
    (∀ (now goal prev cur : String),
        (CompareTexts.enhanced_diff_analysis now goal prev cur).has_change =
          (decide ((CompareTexts.enhanced_diff_analysis now goal prev cur).text_added +
              (CompareTexts.enhanced_diff_analysis now goal prev cur).text_removed > 0) ||
           decide ((CompareTexts.enhanced_diff_analysis now goal prev cur).similarity < 98/100) ||
           !(CompareTexts.detect_critical_phrases prev cur).isEmpty)) := by
  constructor
  · intro imgEnv extractText ub llmCall pd cd pss css goal domain url kws pi ci r hp hcc h
    unfold Pipeline.analyze_change at h
    rw [hp, hcc] at h
    simp only [Bind.bind, Except.bind, pure, Except.pure, Except.ok.injEq] at h
    subst h
    constructor
    · simp [Bool.or_eq_true, decide_eq_true_eq]
    · intro heq hge
      have hz : (UtilsDom.text_diff_stats (extractText pd) (extractText cd)).1 = 0 ∧
          (UtilsDom.text_diff_stats (extractText pd) (extractText cd)).2.1 = 0 := by
        rw [heq]
        unfold UtilsDom.text_diff_stats
        dsimp only
        rw [opcodeCounts_self]
        exact ⟨rfl, rfl⟩
      show (decide _ || decide _) = false
      rw [Bool.or_eq_false_iff]
      constructor
      · simp only [decide_eq_false_iff_not]
        omega
      · simp only [decide_eq_false_iff_not, not_lt]
        exact hge
  · intro now goal prev cur
    rfl

/-- C9 witness: identical (empty) DOMs and absent screenshots under the
test environment yield `has_change = false`. -/
theorem C9_has_change_witness : blankPipelineResult.has_change = false :=
  (C9_has_change_rule.1 testImageEnv (fun s => s) false (fun _ => none)
    "" "" .pynone .pynone "g" "d" "u" [] .blank64 .blank64 blankPipelineResult
    rfl rfl analyze_blank_eq).2 rfl (by decide)

/-- C10: the headline similarity of the pipeline's `ChangeResult` is
always the fixed 60/40 blend `round(0.6*sim_text + 0.4*sim_visual, 4)` —
the pipeline takes no visual-weight parameter at all — while the
configurable `VISUAL_WEIGHT` affects only the alternate post-hoc blend of
`main`, where the combined similarity is `(1-w)*text + w*visual` with `w`
read from the environment, defaulting to 0.3 and clamped to `[0, 0.5]`. -/
theorem C10_similarity_blend :
    (∀ (imgEnv : UtilsImage.ImageEnv) (extractText : String → String)
        (ub : Bool) (llmCall : String → Option Pipeline.LlmSummary)
        (pd cd : String) (pss css : UtilsImage.ImgRef)
        (goal domain url : String) (kws : List String)
        (pi ci : UtilsImage.PILImage) (r : Pipeline.ChangeResult),
        UtilsImage.load_image imgEnv pss = .ok pi →
        UtilsImage.load_image imgEnv css = .ok ci →
        Pipeline.analyze_change imgEnv extractText ub llmCall
          pd cd pss css goal domain url kws = .ok r →
        r.similarity = pyRound4
          ((UtilsDom.text_diff_stats (extractText pd) (extractText cd)).2.2.2 * 6/10 +
            UtilsImage.perceptual_similarity imgEnv pi ci * 4/10)) ∧
    (∀ (vwEnv : Option ℚ) (ts vs : ℚ),
        CompareTexts.sim_combined vwEnv ts vs =
          (1 - max 0 (min (1/2) (vwEnv.getD (3/10)))) * ts +
            max 0 (min (1/2) (vwEnv.getD (3/10))) * vs) := by
  constructor
  · intro imgEnv extractText ub llmCall pd cd pss css goal domain url kws pi ci r hp hcc h
    unfold Pipeline.analyze_change at h
    rw [hp, hcc] at h
    simp only [Bind.bind, Except.bind, pure, Except.pure, Except.ok.injEq] at h
    subst h
    rfl
  · intro vwEnv ts vs
    rfl

/-- C10 witness: the blend equation instantiated at the concrete blank
pipeline run. -/
theorem C10_similarity_blend_witness :
    blankPipelineResult.similarity = pyRound4
      ((UtilsDom.text_diff_stats "" "").2.2.2 * 6/10 +
        UtilsImage.perceptual_similarity testImageEnv .blank64 .blank64 * 4/10) :=
  C10_similarity_blend.1 testImageEnv (fun s => s) false (fun _ => none)
    "" "" .pynone .pynone "g" "d" "u" [] .blank64 .blank64 blankPipelineResult
    rfl rfl analyze_blank_eq

end PharmaCI
